import Mathlib

set_option maxHeartbeats 1600000

/-!
Verification development for the ymori-sql-formatter rendering engine.

The definitions below are a shallow embedding of the TypeScript sources:
  - src/core/indent-context.ts        (IndentContext)
  - src/utils/formatter-utils.ts      (FormatterUtils, ASTUtils, StringUtils,
                                       ExpressionFormatter)
  - src/statements/select-formatter.ts (SelectFormatter)
  - src/formatter.ts                   (SqlFormatter.formatSql orchestrator)

JavaScript strings are modelled as Lean `String`, JS arrays as `List`,
possibly-absent object fields as `Option`.  The mutually recursive renderer
is written with an explicit fuel parameter (the JS recursion is bounded by
the AST structure; fuel 0 yields the empty string and plays no role at the
fuel levels used by the theorems).  Numeric widths are `Nat`; the few
JS sites that can compute a negative argument to `' '.repeat` (which would
raise a RangeError) are modelled with truncated subtraction and the theorems
that touch them carry hypotheses keeping the subtraction nonnegative, which
is also the regime every reachable call of the source operates in.
-/

/-- JS `' '.repeat(n)` for a nonnegative count. -/
def spaces (n : Nat) : String := String.mk (List.replicate n ' ')

/-- JS `Array.prototype.join(sep)`. -/
def joinSep (sep : String) : List String → String
  | [] => ""
  | [x] => x
  | x :: y :: xs => x ++ sep ++ joinSep sep (y :: xs)

/-- JS `Array.prototype.join('\n')`. -/
def joinNl (xs : List String) : String := joinSep "\n" xs

/-- JS `String.prototype.split('\n')` on the underlying character list. -/
def linesData : List Char → List (List Char)
  | [] => [[]]
  | c :: rest =>
      match linesData rest with
      | [] => [[]]
      | l :: ls => if c = '\n' then [] :: l :: ls else (c :: l) :: ls

/-- JS `String.prototype.split('\n')`. -/
def strLines (s : String) : List String := (linesData s.data).map String.mk

/-- A string that renders as a single display line. -/
def singleLine (s : String) : Prop := '\n' ∉ s.data

instance (s : String) : Decidable (singleLine s) := by
  unfold singleLine; infer_instance

/-- JS `Math.max(...l)` for a list of nonnegative numbers (the sources only
spread nonempty lists of string lengths into `Math.max`). -/
def listMax : List Nat → Nat
  | [] => 0
  | x :: xs => max x (listMax xs)

/-- JS `String.prototype.padStart(n, ' ')`. -/
def padStartJs (s : String) (n : Nat) : String := spaces (n - s.length) ++ s

/-- JS `String.prototype.trim()` (on the ASCII whitespace the renderer
emits). -/
def trimJs (s : String) : String :=
  String.mk (((s.data.dropWhile Char.isWhitespace).reverse.dropWhile
    Char.isWhitespace).reverse)

/-- JS `String.prototype.endsWith(t)`. -/
def endsWithJs (s t : String) : Bool := t.data.isSuffixOf s.data

/-- JS `String.prototype.toUpperCase()` (the formatter only feeds it ASCII). -/
def toUpperJs (s : String) : String := String.mk (s.data.map Char.toUpper)

/-- JS `String.prototype.toLowerCase()` (the formatter only feeds it ASCII). -/
def toLowerJs (s : String) : String := String.mk (s.data.map Char.toLower)

/-- A primitive JS value sitting in an AST node field (`expr.value`). -/
inductive JsVal where
  | str (s : String)
  | num (n : Int)
  | boolV (b : Bool)

/-- JS `String(v)` on a primitive value. -/
def JsVal.toJsString : JsVal → String
  | .str s => s
  | .num n => toString n
  | .boolV b => if b then "true" else "false"

/-! ## src/core/indent-context.ts -/

/-- `IndentContextType` from indent-context.ts. -/
inductive IndentContextType where
  | main
  | select_clause
  | where_clause
  | case_when
  | function_arg
  | subquery
  | join_condition
deriving DecidableEq

/-- `keywordCase` option values. -/
inductive KeywordCase where
  | upper
  | lower
deriving DecidableEq

/-- `Required<FormatterOptions>` (the `insertDummyHint` field of the
indent-context.ts variant is never read by the renderer and is omitted). -/
structure FormatterOptions where
  indentSize : Nat
  keywordCase : KeywordCase

/-- The `IndentContext` class: an immutable record with an optional
read-only parent reference. -/
inductive IndentContext where
  | mk (nestLevel : Nat) (contextType : IndentContextType)
       (baseKeywordLength : Nat) (parent : Option IndentContext)
       (isFirstSelect : Bool)

namespace IndentContext

def nestLevel : IndentContext → Nat
  | .mk n _ _ _ _ => n

def contextType : IndentContext → IndentContextType
  | .mk _ t _ _ _ => t

def baseKeywordLength : IndentContext → Nat
  | .mk _ _ b _ _ => b

def parent : IndentContext → Option IndentContext
  | .mk _ _ _ p _ => p

def isFirstSelect : IndentContext → Bool
  | .mk _ _ _ _ f => f

/-- `createChildContext`. -/
def createChildContext (ctx : IndentContext) (childType : IndentContextType) :
    IndentContext :=
  .mk (ctx.nestLevel + 1) childType ctx.baseKeywordLength (some ctx) false

/-- `createSiblingContext`. -/
def createSiblingContext (ctx : IndentContext) (siblingType : IndentContextType) :
    IndentContext :=
  .mk ctx.nestLevel siblingType ctx.baseKeywordLength ctx.parent false

/-- `createSubqueryContext`. -/
def createSubqueryContext (ctx : IndentContext) (subqueryBaseLength : Nat) :
    IndentContext :=
  .mk (ctx.nestLevel + 1) .subquery subqueryBaseLength (some ctx) false

/-- `getBaseIndent`. -/
def getBaseIndent (ctx : IndentContext) : Nat :=
  if ctx.nestLevel = 0 then ctx.baseKeywordLength
  else ctx.baseKeywordLength + ctx.nestLevel * 2

/-- `getContextIndent`. -/
def getContextIndent (ctx : IndentContext) : Nat :=
  let baseIndent := ctx.getBaseIndent
  match ctx.contextType with
  | .main => baseIndent
  | .select_clause => baseIndent + 1
  | .where_clause => baseIndent + 1
  | .case_when => baseIndent + 3
  | .function_arg => baseIndent + 1
  | .subquery => baseIndent + 1
  | .join_condition => baseIndent

/-- `getIndentString`. -/
def getIndentString (ctx : IndentContext) : String :=
  spaces ctx.getContextIndent

/-- `getClosingIndent`. -/
def getClosingIndent (ctx : IndentContext) : Nat :=
  match ctx.parent with
  | some p =>
      if ctx.contextType = .subquery then p.getContextIndent + 1
      else p.getContextIndent
  | none => ctx.baseKeywordLength

/-- `getClosingIndentString`. -/
def getClosingIndentString (ctx : IndentContext) : String :=
  spaces ctx.getClosingIndent

end IndentContext

/-! ## The parser AST, as consumed by the renderer

`node-sql-parser` hands the renderer loosely shaped objects; the inductives
below enumerate exactly the field shapes the renderer distinguishes.  A node
carrying an `ast` field (a wrapped subquery) is `Expr.sub`; `type: undefined`
nodes with a `columns` field are `Expr.undefCols`; any unrecognized tag is
`Expr.unknownE` with its optional `value` field. -/

/-- The three physical encodings of a function name field
(`expr.name` a plain string; `expr.name.name` an array of value-parts;
`expr.name.value`). -/
inductive FuncName where
  | plain (s : String)
  | parts (ps : List String)
  | valObj (v : String)

/-- Shapes of `expr.column` handled by `formatColumnRef`. -/
inductive ColumnField where
  | str (s : String)
  | exprVal (v : String)
  | valObj (v : String)
  | otherCol

/-- String-literal subtypes dispatched in `formatExpressionWithContext`. -/
inductive QuoteStyle where
  | backticks
  | double
  | single
  | plainStr
  | regexS
  | hexS
  | bitS

/-- Date/time literal subtypes. -/
inductive TimeStyle where
  | dateS
  | timeS
  | timestampS
  | datetimeS

/-- Shapes of `cte.name` (`cte.name?.value || cte.name`). -/
inductive CteName where
  | obj (value : String)
  | plain (s : String)

mutual

inductive Expr where
  | column_ref (table : Option String) (column : ColumnField)
  | caseE (args : Option (List CaseArg))
  | binary_expr (operator : String) (left : Expr) (right : Expr)
  | funcE (name : Option FuncName) (args : Option FuncArgs)
  | aggr_func (name : String) (args : Option AggrArgs)
  | window_func (name : String) (over : Option WindowSpec)
  | castE (e : Expr) (target : Option String) (operator : Option String)
  | unary_expr (operator : String) (e : Expr)
  | arrayE (value : Option (List Expr))
  | param (value : String)
  | strLit (style : QuoteStyle) (value : String)
  | numberE (value : Int)
  | boolE (value : Bool)
  | nullE
  | timeLit (style : TimeStyle) (value : String)
  | star
  | originE (value : String)
  | expr_list (value : Option (List Expr))
  | intervalE (e : Expr)
  | extractE (field : Option String) (source : Expr)
  | sub (ast : Stmt)
  | undefCols (columns : List Expr)
  | undefOther (value : Option JsVal)
  | unknownE (tag : String) (value : Option JsVal)

inductive CaseArg where
  | whenA (cond : Expr) (result : Expr)
  | elseA (result : Expr)

inductive FuncArgs where
  | objList (value : List Expr)
  | arrList (items : List Expr)

inductive AggrArgs where
  | mk (distinct : Option String) (e : Expr)

inductive WindowSpec where
  | mk (partitionby : Option (List OrdItem)) (orderby : Option (List OrdItem))

inductive OrdItem where
  | mk (e : Expr) (ty : Option String)

inductive Col where
  | mk (e : Expr) (asName : Option String)

inductive Stmt where
  | select (withClause : Option WithField) (columns : List Col)
           (fromClause : Option (List TableRef)) (whereClause : Option Expr)
           (groupby : Option GroupByField) (having : Option Expr)
           (orderby : Option (List OrdItem)) (limit : Option LimitClause)
           (setOp : Option String) (next : Option Stmt)
  | update (hasSet : Bool) (hasWhere : Bool)
  | deleteS (hasWhere : Bool)
  | insert (hasValues : Bool)
  | other (tag : String)

inductive WithField where
  | list (ctes : List Cte)
  | malformed

inductive Cte where
  | mk (name : Option CteName) (stmt : Option CteBody)

inductive CteBody where
  | wrapped (ast : Stmt)
  | direct (s : Stmt)

inductive TableRef where
  | mk (source : TableSource) (asName : Option String)
       (join : Option String) (onCond : Option Expr)

inductive TableSource where
  | subAst (ast : Stmt)
  | named (table : String)
  | weird (name : Option String) (value : Option String)

inductive GroupByField where
  | arr (cols : List Expr)
  | single (e : Expr)

inductive LimitClause where
  | mk (seperator : Option String) (value : List Expr)

end

/-- The `.ast` field of an expression node (`some` exactly when the JS node
carries a truthy `ast` property). -/
def Expr.astField : Expr → Option Stmt
  | .sub a => some a
  | _ => none

/-- The `.operator` field of an expression node, when present. -/
def Expr.operatorField : Expr → Option String
  | .binary_expr op _ _ => some op
  | .unary_expr op _ => some op
  | .castE _ _ (some op) => some op
  | _ => none

/-- The `.right` field of an expression node, when present. -/
def Expr.rightField : Expr → Option Expr
  | .binary_expr _ _ r => some r
  | _ => none

/-- Accessors for the statement fields the renderer reads
(duck-typed property reads in JS; `none` when the property is absent). -/
def Stmt.withF : Stmt → Option WithField
  | .select wf _ _ _ _ _ _ _ _ _ => wf
  | _ => none

def Stmt.columnsF : Stmt → Option (List Col)
  | .select _ cols _ _ _ _ _ _ _ _ => some cols
  | _ => none

def Stmt.fromF : Stmt → Option (List TableRef)
  | .select _ _ fr _ _ _ _ _ _ _ => fr
  | _ => none

def Stmt.whereF : Stmt → Option Expr
  | .select _ _ _ wh _ _ _ _ _ _ => wh
  | _ => none

def Stmt.groupbyF : Stmt → Option GroupByField
  | .select _ _ _ _ gb _ _ _ _ _ => gb
  | _ => none

def Stmt.havingF : Stmt → Option Expr
  | .select _ _ _ _ _ hv _ _ _ _ => hv
  | _ => none

def Stmt.orderbyF : Stmt → Option (List OrdItem)
  | .select _ _ _ _ _ _ ob _ _ _ => ob
  | _ => none

def Stmt.limitF : Stmt → Option LimitClause
  | .select _ _ _ _ _ _ _ lim _ _ => lim
  | _ => none

def Stmt.setOpF : Stmt → Option String
  | .select _ _ _ _ _ _ _ _ so _ => so
  | _ => none

def Stmt.nextF : Stmt → Option Stmt
  | .select _ _ _ _ _ _ _ _ _ nx => nx
  | _ => none

/-- `cte.stmt?.ast || cte.stmt` — the query rendered for a CTE. -/
def Cte.query : Cte → Option Stmt
  | .mk _ (some (.wrapped a)) => some a
  | .mk _ (some (.direct s)) => some s
  | .mk _ none => none

/-- `cte.name?.value || cte.name || "unnamed_cte"` (the falsy-empty-string
edge of `||` is not distinguished: parser names are nonempty). -/
def Cte.displayName : Cte → String
  | .mk (some (.obj v)) _ => v
  | .mk (some (.plain s)) _ => s
  | .mk none _ => "unnamed_cte"

def TableRef.source : TableRef → TableSource
  | .mk s _ _ _ => s

def TableRef.asName : TableRef → Option String
  | .mk _ a _ _ => a

def TableRef.joinF : TableRef → Option String
  | .mk _ _ j _ => j

def TableRef.onCond : TableRef → Option Expr
  | .mk _ _ _ o => o

def Col.expr : Col → Expr
  | .mk e _ => e

def Col.asName : Col → Option String
  | .mk _ a => a

def OrdItem.expr : OrdItem → Expr
  | .mk e _ => e

def OrdItem.ty : OrdItem → Option String
  | .mk _ t => t

def LimitClause.seperator : LimitClause → Option String
  | .mk s _ => s

def LimitClause.value : LimitClause → List Expr
  | .mk _ v => v

/-! ## src/utils/formatter-utils.ts — FormatterUtils / ASTUtils / StringUtils -/

/-- `FormatterUtils.countAndKeywords`: counts AND-typed binary nodes; a
non-AND node stops the recursion (OR branches are not entered). -/
def countAndKeywords : Expr → Nat
  | .binary_expr op l r =>
      if op = "AND" then 1 + countAndKeywords l + countAndKeywords r else 0
  | _ => 0

/-- The JOIN-related keywords collected for one FROM entry inside
`collectKeywordsFromStatement`. -/
def joinKeywordsOfTable (t : TableRef) : List String :=
  match t.joinF with
  | some j =>
      j :: (match t.onCond with
            | some cond => "ON" :: List.replicate (countAndKeywords cond) "AND"
            | none => [])
  | none => []

/-- `FormatterUtils.collectKeywordsFromStatement`. -/
def collectKeywordsFromStatement : Stmt → List String
  | .select _ _ fr wh gb hv ob lim _ _ =>
      ["SELECT"]
      ++ (if fr.isSome then ["FROM"] else [])
      ++ (if wh.isSome then ["WHERE"] else [])
      ++ (if gb.isSome then ["GROUP BY"] else [])
      ++ (if hv.isSome then ["HAVING"] else [])
      ++ (if ob.isSome then ["ORDER BY"] else [])
      ++ (match lim with
          | some l =>
              "LIMIT" :: (if l.seperator = some "offset" then ["OFFSET"] else [])
          | none => [])
      ++ (match fr with
          | some tables => tables.flatMap joinKeywordsOfTable
          | none => [])
  | .update hasSet hasWhere =>
      ["UPDATE"] ++ (if hasSet then ["SET"] else [])
      ++ (if hasWhere then ["WHERE"] else [])
  | .deleteS hasWhere =>
      ["DELETE FROM"] ++ (if hasWhere then ["WHERE"] else [])
  | .insert hasValues =>
      ["INSERT INTO"] ++ (if hasValues then ["VALUES"] else [])
  | .other _ => []

/-- The `allKeywords` array built by
`FormatterUtils.calculateGlobalMaxKeywordLength`: the WITH keyword and every
CTE body keyword set (only when `stmt.with` is an array), then the main
query keyword set. -/
def globalKeywords (stmt : Stmt) : List String :=
  (match stmt.withF with
   | some (.list ctes) =>
       "WITH" :: ctes.flatMap (fun cte =>
         match cte.query with
         | some q => collectKeywordsFromStatement q
         | none => [])
   | _ => [])
  ++ collectKeywordsFromStatement stmt

/-- `FormatterUtils.calculateGlobalMaxKeywordLength`:
`allKeywords.length > 0 ? Math.max(...lengths) : 0`. -/
def calculateGlobalMaxKeywordLength (stmt : Stmt) : Nat :=
  let allKeywords := globalKeywords stmt
  if allKeywords.length > 0 then listMax (allKeywords.map String.length) else 0

/-- `calculateSubqueryKeywordLength` (identical private helper of
ExpressionFormatter and SelectFormatter):
`keywords.length > 0 ? Math.max(...lengths) : 6`. -/
def calculateSubqueryKeywordLength (ast : Stmt) : Nat :=
  let keywords := collectKeywordsFromStatement ast
  if keywords.length > 0 then listMax (keywords.map String.length) else 6

/-- `FormatterUtils.flattenAndOrConditions` (the identical private copy in
ExpressionFormatter is the one the renderer calls). -/
def flattenAndOrConditions (e : Expr) (operator : String) : List Expr :=
  match e with
  | .binary_expr op l r =>
      if op = operator then
        flattenAndOrConditions l operator ++ flattenAndOrConditions r operator
      else [e]
  | _ => [e]

/-- First element of `expr.value` carrying an `ast` property (the scan loop
inside `extractSubqueryAst`). -/
def findAstInList : List Expr → Option Stmt
  | [] => none
  | e :: rest =>
      match e.astField with
      | some a => some a
      | none => findAstInList rest

/-- `ExpressionFormatter.extractSubqueryAst` (= `ASTUtils.extractSubqueryAst`):
a direct `ast` property wins, otherwise an `expr_list` is scanned for an item
with an `ast` property.  (The source's third check — `type === undefined`
with `ast` — is subsumed by the first.) -/
def extractSubqueryAst (e : Expr) : Option Stmt :=
  match e.astField with
  | some a => some a
  | none =>
      match e with
      | .expr_list (some v) => findAstInList v
      | _ => none

/-- `handleUnknownExpression` fallback (the `NODE_ENV` console warning is a
side effect with no bearing on the returned string): `String(expr.value)`
when the node carries a value, else the placeholder comment. -/
def handleUnknownExpression (value : Option JsVal) : String :=
  match value with
  | some v => v.toJsString
  | none => "/* unsupported expression */"

/-- `formatColumnRef` (identical in StringUtils and ExpressionFormatter):
resolves the column name through the known field shapes, then prefixes the
table qualifier. -/
def formatColumnRef (table : Option String) (column : ColumnField) : String :=
  let columnName :=
    match column with
    | .str s => s
    | .exprVal v => v
    | .valObj v => v
    | .otherCol => "unknown_column"
  match table with
  | some t => t ++ "." ++ columnName
  | none => columnName

/-- `formatKeyword` (identical in ExpressionFormatter and SelectFormatter). -/
def formatKeyword (opts : FormatterOptions) (keyword : String) : String :=
  if opts.keywordCase = KeywordCase.upper then toUpperJs keyword
  else toLowerJs keyword

/-- `formatParameterExpression`: returns `expr.value`. -/
def formatParameterExpression (value : String) : String := value

/-- The function-name normalization of `formatFunctionWithContext`
(plain string / `name.name` parts joined with `.` / `name.value`). -/
def resolveFuncName : Option FuncName → String
  | some (.plain s) => s
  | some (.parts ps) => joinSep "." ps
  | some (.valObj v) => v
  | none => "unknown_function"

/-! ## src/utils/formatter-utils.ts — ExpressionFormatter,
    src/statements/select-formatter.ts — SelectFormatter

The two classes form one mutual recursion over the AST.  Every function
takes a fuel argument consumed once per call; the theorems quantify over
enough fuel for the unfoldings they state. -/

/-- `context.contextType === 'where_clause' || context.contextType ===
'join_condition'`, recomputed at each subquery-rendering site. -/
def isWhereContext (ctx : IndentContext) : Bool :=
  ctx.contextType == IndentContextType.where_clause
    || ctx.contextType == IndentContextType.join_condition

/-- The guard of the ANY/ALL-on-the-right branch of
`formatBinaryExpressionWithContext` (source lines 413-425): the right
operand is a function node with a structured name whose first part
upper-cases to ANY or ALL and whose first argument carries a subquery ast.
(On an empty name-part array the JS would raise; parser names are
nonempty, modelled as the empty name failing the guard.) -/
def anyAllRightIntercept (r : Expr) : Option (String × Stmt) :=
  match r with
  | .funcE (some (.parts ps)) (some (.objList (a0 :: _))) =>
      let funcName := toUpperJs (ps.head?.getD "")
      if funcName = "ANY" ∨ funcName = "ALL" then
        match a0.astField with
        | some ast => some (funcName, ast)
        | none => none
      else none
  | _ => none

/-- The guard of the NOT EXISTS branch of
`formatUnaryExpressionWithContext`: operator NOT over a function node named
EXISTS whose first argument carries a subquery ast. -/
def notExistsPattern (operator : String) (e : Expr) : Bool :=
  match e with
  | .funcE (some (.parts ps)) (some (.objList (a0 :: _))) =>
      operator == "NOT" && toUpperJs (ps.head?.getD "") == "EXISTS"
        && a0.astField.isSome
  | _ => false

/-- Inside the NOT EXISTS branch the source calls
`formatSubqueryWithContext(expr.expr.ast, ...)`, but `expr.expr` is the
EXISTS function node, which has no `ast` property; the callee immediately
dereferences `stmt.type` of `undefined` and raises a TypeError.  The total
embedding marks that raise with this sentinel string; no theorem in this
file relies on the branch. -/
def crashUndefinedAst : String :=
  "/* TypeError: Cannot read properties of undefined (reading type) */"

mutual

/-- `ExpressionFormatter.formatExpressionWithContext`: total dispatch over
the node tag. -/
def formatExpressionWithContext :
    Nat → FormatterOptions → Expr → IndentContext → String
  | 0, _, _, _ => ""
  | f + 1, opts, e, ctx =>
    match e with
    | .column_ref t c => formatColumnRef t c
    | .caseE args => formatCaseExpressionWithContext f opts args ctx
    | .binary_expr op l r => formatBinaryExpressionWithContext f opts op l r ctx
    | .funcE name args =>
        match handleSpecialOperators f opts (.funcE name args) ctx with
        | some s => s
        | none => formatFunctionWithContext f opts name args ctx
    | .aggr_func n a => formatAggregateFunctionWithContext f opts n a ctx
    | .window_func n o => formatWindowFunctionWithContext f opts n o ctx
    | .castE e2 t o => formatCastExpressionWithContext f opts e2 t o ctx
    | .unary_expr op x => formatUnaryExpressionWithContext f opts op x ctx
    | .arrayE v => formatArrayExpressionWithContext f opts v ctx
    | .param v => formatParameterExpression v
    | .strLit .backticks v => "`" ++ v ++ "`"
    | .strLit .double v => "\"" ++ v ++ "\""
    | .strLit .single v => "\x27" ++ v ++ "\x27"
    | .strLit .plainStr v => "\x27" ++ v ++ "\x27"
    | .strLit .regexS v => "~\x27" ++ v ++ "\x27"
    | .strLit .hexS v => "X\x27" ++ v ++ "\x27"
    | .strLit .bitS v => "B\x27" ++ v ++ "\x27"
    | .numberE v => toString v
    | .boolE b => if b then "TRUE" else "FALSE"
    | .nullE => "NULL"
    | .timeLit .dateS v => "DATE \x27" ++ v ++ "\x27"
    | .timeLit .timeS v => "TIME \x27" ++ v ++ "\x27"
    | .timeLit .timestampS v => "TIMESTAMP \x27" ++ v ++ "\x27"
    | .timeLit .datetimeS v => "DATETIME \x27" ++ v ++ "\x27"
    | .star => "*"
    | .originE v => v
    | .expr_list v => formatExprListWithContext f opts v ctx
    | .intervalE x => "INTERVAL " ++ formatExpressionWithContext f opts x ctx
    | .extractE fld src =>
        "EXTRACT(" ++ fld.getD "UNKNOWN" ++ " FROM "
          ++ formatExpressionWithContext f opts src ctx ++ ")"
    | .sub _ | .undefCols _ | .undefOther _ =>
        handleUndefinedExpression f opts e ctx
    | .unknownE _ v => handleUnknownExpression v

/-- `formatCaseExpressionWithContext` (receives the node's `args` field). -/
def formatCaseExpressionWithContext :
    Nat → FormatterOptions → Option (List CaseArg) → IndentContext → String
  | 0, _, _, _ => ""
  | f + 1, opts, args, ctx =>
    let caseContext := ctx.createSiblingContext .case_when
    let whenIndent := caseContext.getIndentString
    let endIndent := spaces ctx.getContextIndent
    let mids :=
      match args with
      | some l =>
          l.map (fun arg =>
            match arg with
            | .whenA c res =>
                whenIndent ++ formatKeyword opts "WHEN" ++ " "
                  ++ formatExpressionWithContext f opts c caseContext ++ " "
                  ++ formatKeyword opts "THEN" ++ " "
                  ++ formatExpressionWithContext f opts res caseContext
            | .elseA res =>
                whenIndent ++ formatKeyword opts "ELSE" ++ " "
                  ++ formatExpressionWithContext f opts res caseContext)
      | none => []
    joinNl ([formatKeyword opts "CASE"] ++ mids
      ++ [endIndent ++ formatKeyword opts "END"])

/-- `formatBinaryExpressionWithContext` (receives the node's operator and
operands); the check cascade follows the source order, with the tail of the
cascade split into `formatBinaryTail`. -/
def formatBinaryExpressionWithContext :
    Nat → FormatterOptions → String → Expr → Expr → IndentContext → String
  | 0, _, _, _, _, _ => ""
  | f + 1, opts, op, l, r, ctx =>
    let left := formatExpressionWithContext f opts l ctx
    match op, r with
    | "=", .caseE args =>
        let caseContext :=
          IndentContext.mk ctx.nestLevel .case_when ctx.baseKeywordLength
            (some ctx) false
        let right := formatCaseExpressionWithContext f opts args caseContext
        left ++ " = " ++ right
    | _, _ =>
        if ["IN", "EXISTS", "ANY", "ALL"].contains op then
          handleSubqueryOperator f opts op r left ctx
        else if op = "NOT IN" then
          handleNotInOperator f opts r left ctx
        else if op = "NOT" ∧ r.operatorField.isSome then
          let rightOp := r.operatorField.getD ""
          if ["IN", "EXISTS", "ANY", "ALL"].contains rightOp then
            handleNotSubqueryOperator f opts r left ctx
          else if rightOp = "BETWEEN" then
            handleNotBetweenOperator f opts r left ctx
          else formatBinaryTail f opts op l r left ctx
        else formatBinaryTail f opts op l r left ctx

/-- The remainder of `formatBinaryExpressionWithContext` after the
NOT-operator branch: BETWEEN, NOT BETWEEN, the ANY/ALL-right interception,
the AND/OR flattening at nest level 0, and the default rendering. -/
def formatBinaryTail :
    Nat → FormatterOptions → String → Expr → Expr → String → IndentContext →
    String
  | 0, _, _, _, _, _, _ => ""
  | f + 1, opts, op, l, r, left, ctx =>
    if op = "BETWEEN" then handleBetweenOperator f opts r left ctx
    else if op = "NOT BETWEEN" then
      handleDirectNotBetweenOperator f opts r left ctx
    else
      match anyAllRightIntercept r with
      | some fa =>
          let subqueryResult :=
            formatSubqueryWithContext f opts fa.2 (ctx.createSubqueryContext 6)
              true (isWhereContext ctx)
          if isWhereContext ctx then
            left ++ " " ++ op ++ " " ++ fa.1 ++ " (\n" ++ subqueryResult
              ++ "\n" ++ spaces (ctx.baseKeywordLength - 2) ++ ")"
          else
            left ++ " " ++ op ++ " " ++ fa.1 ++ " (\n" ++ subqueryResult
              ++ "\n" ++ ctx.getIndentString ++ ")"
      | none =>
          let right := formatExpressionWithContext f opts r ctx
          if (op = "AND" ∨ op = "OR") ∧ ctx.nestLevel = 0 then
            match flattenAndOrConditions (.binary_expr op l r) op with
            | [] => joinNl []
            | c0 :: rest =>
                joinNl (formatExpressionWithContext f opts c0 ctx ::
                  rest.map (fun c =>
                    spaces (ctx.baseKeywordLength - op.length) ++ op ++ " "
                      ++ formatExpressionWithContext f opts c ctx))
          else left ++ " " ++ op ++ " " ++ right

/-- `handleSubqueryOperator` (IN / EXISTS / ANY / ALL as a binary operator). -/
def handleSubqueryOperator :
    Nat → FormatterOptions → String → Expr → String → IndentContext → String
  | 0, _, _, _, _, _ => ""
  | f + 1, opts, op, r, left, ctx =>
    match extractSubqueryAst r with
    | some subqueryAst =>
        let subqueryResult :=
          formatSubqueryWithContext f opts subqueryAst
            (ctx.createSubqueryContext 6) true (isWhereContext ctx)
        if isWhereContext ctx then
          left ++ " " ++ op ++ " (" ++ subqueryResult ++ "\n"
            ++ spaces (ctx.baseKeywordLength + 1) ++ ")"
        else
          left ++ " " ++ op ++ " (\n" ++ subqueryResult ++ "\n"
            ++ ctx.getIndentString ++ ")"
    | none =>
        match r with
        | .expr_list (some v) =>
            if op = "IN" ∧ 2 ≤ v.length ∧ isWhereContext ctx then
              left ++ " " ++ op ++ " " ++ formatMultilineValueList f opts v ctx
            else
              left ++ " " ++ op ++ " "
                ++ formatExpressionWithContext f opts r ctx
        | _ =>
            left ++ " " ++ op ++ " " ++ formatExpressionWithContext f opts r ctx

/-- `handleNotInOperator`. -/
def handleNotInOperator :
    Nat → FormatterOptions → Expr → String → IndentContext → String
  | 0, _, _, _, _ => ""
  | f + 1, opts, r, left, ctx =>
    match r with
    | .expr_list vOpt =>
        match extractSubqueryAst (.expr_list vOpt) with
        | some subqueryAst =>
            let subqueryResult :=
              formatSubqueryWithContext f opts subqueryAst
                (ctx.createSubqueryContext 6) true (isWhereContext ctx)
            if isWhereContext ctx then
              left ++ " NOT IN (\n" ++ subqueryResult ++ "\n"
                ++ spaces (ctx.baseKeywordLength - 2) ++ ")"
            else
              left ++ " NOT IN (\n" ++ subqueryResult ++ "\n"
                ++ ctx.getIndentString ++ ")"
        | none =>
            match vOpt with
            | some v =>
                if 2 ≤ v.length ∧ isWhereContext ctx then
                  left ++ " NOT IN " ++ formatMultilineValueList f opts v ctx
                else
                  left ++ " NOT IN "
                    ++ formatExpressionWithContext f opts (.expr_list vOpt) ctx
            | none =>
                left ++ " NOT IN "
                  ++ formatExpressionWithContext f opts (.expr_list vOpt) ctx
    | _ => left ++ " NOT IN " ++ formatExpressionWithContext f opts r ctx

/-- `handleNotSubqueryOperator` (binary NOT wrapping an IN/EXISTS/ANY/ALL
node). -/
def handleNotSubqueryOperator :
    Nat → FormatterOptions → Expr → String → IndentContext → String
  | 0, _, _, _, _ => ""
  | f + 1, opts, rightExpr, left, ctx =>
    let operator := rightExpr.operatorField.getD ""
    match (match rightExpr.rightField with
           | some rr => extractSubqueryAst rr
           | none => none) with
    | some subqueryAst =>
        let subqueryResult :=
          formatSubqueryWithContext f opts subqueryAst
            (ctx.createSubqueryContext 6) true (isWhereContext ctx)
        if isWhereContext ctx then
          left ++ " NOT " ++ operator ++ " (\n" ++ subqueryResult ++ "\n"
            ++ spaces (ctx.baseKeywordLength - 2) ++ ")"
        else
          left ++ " NOT " ++ operator ++ " (\n" ++ subqueryResult ++ "\n"
            ++ ctx.getIndentString ++ ")"
    | none =>
        match rightExpr.rightField with
        | some (.expr_list (some v)) =>
            if operator = "IN" ∧ 2 ≤ v.length ∧ isWhereContext ctx then
              left ++ " NOT " ++ operator ++ " "
                ++ formatMultilineValueList f opts v ctx
            else
              left ++ " NOT " ++ operator ++ " "
                ++ formatExpressionWithContext f opts (.expr_list (some v)) ctx
        | some rr =>
            left ++ " NOT " ++ operator ++ " "
              ++ formatExpressionWithContext f opts rr ctx
        | none => left ++ " NOT " ++ operator ++ " "

/-- `handleBetweenOperator` (the source's `Array.isArray(right)` alternative
cannot occur: the parser encodes the pair as an `expr_list`). -/
def handleBetweenOperator :
    Nat → FormatterOptions → Expr → String → IndentContext → String
  | 0, _, _, _, _ => ""
  | f + 1, opts, r, left, ctx =>
    match r with
    | .expr_list (some [v1, v2]) =>
        left ++ " BETWEEN " ++ formatExpressionWithContext f opts v1 ctx
          ++ " AND " ++ formatExpressionWithContext f opts v2 ctx
    | _ => left ++ " BETWEEN " ++ formatExpressionWithContext f opts r ctx

/-- `handleNotBetweenOperator` (binary NOT wrapping a BETWEEN node: the pair
is read from `expr.right.right`; the BETWEEN node's own left operand is
ignored). -/
def handleNotBetweenOperator :
    Nat → FormatterOptions → Expr → String → IndentContext → String
  | 0, _, _, _, _ => ""
  | f + 1, opts, betweenExpr, left, ctx =>
    match betweenExpr.rightField with
    | some (.expr_list (some [v1, v2])) =>
        left ++ " NOT BETWEEN " ++ formatExpressionWithContext f opts v1 ctx
          ++ " AND " ++ formatExpressionWithContext f opts v2 ctx
    | some rr =>
        left ++ " NOT BETWEEN " ++ formatExpressionWithContext f opts rr ctx
    | none => left ++ " NOT BETWEEN "

/-- `handleDirectNotBetweenOperator` (operator literally `NOT BETWEEN`). -/
def handleDirectNotBetweenOperator :
    Nat → FormatterOptions → Expr → String → IndentContext → String
  | 0, _, _, _, _ => ""
  | f + 1, opts, r, left, ctx =>
    match r with
    | .expr_list (some [v1, v2]) =>
        left ++ " NOT BETWEEN " ++ formatExpressionWithContext f opts v1 ctx
          ++ " AND " ++ formatExpressionWithContext f opts v2 ctx
    | _ => left ++ " NOT BETWEEN " ++ formatExpressionWithContext f opts r ctx

/-- `handleSpecialOperators` (EXISTS / ANY / ALL encoded as function calls):
returns `none` when no special rendering applies. -/
def handleSpecialOperators :
    Nat → FormatterOptions → Expr → IndentContext → Option String
  | 0, _, _, _ => none
  | f + 1, opts, e, ctx =>
    match e with
    | .funcE (some (.parts ps)) args =>
        let funcName := toUpperJs (ps.head?.getD "")
        if funcName = "EXISTS" then
          match args with
          | some (.objList (a0 :: _)) =>
              match a0.astField with
              | some ast =>
                  let subqueryResult :=
                    formatSubqueryWithContext f opts ast
                      (ctx.createSubqueryContext 6) true (isWhereContext ctx)
                  if isWhereContext ctx then
                    some ("EXISTS (\n" ++ subqueryResult ++ "\n"
                      ++ spaces (ctx.baseKeywordLength - 2) ++ ")")
                  else
                    some ("EXISTS (\n" ++ subqueryResult ++ "\n"
                      ++ ctx.getIndentString ++ ")")
              | none => none
          | _ => none
        else if funcName = "ANY" ∨ funcName = "ALL" then
          match args with
          | some (.objList (a0 :: _)) =>
              match a0.astField with
              | some ast =>
                  let subqueryResult :=
                    formatSubqueryWithContext f opts ast
                      (ctx.createSubqueryContext 6) true (isWhereContext ctx)
                  if isWhereContext ctx then
                    some (funcName ++ " (\n" ++ subqueryResult ++ "\n"
                      ++ spaces (ctx.baseKeywordLength - 2) ++ ")")
                  else
                    some (funcName ++ " (\n" ++ subqueryResult ++ "\n"
                      ++ ctx.getIndentString ++ ")")
              | none => none
          | _ => none
        else none
    | _ => none

/-- `formatSubqueryWithContext`. -/
def formatSubqueryWithContext :
    Nat → FormatterOptions → Stmt → IndentContext → Bool → Bool → String
  | 0, _, _, _, _, _ => ""
  | f + 1, opts, ast, subqueryContext, skipParentheses, isWhereCtx =>
    let subqueryKeywordLength := calculateSubqueryKeywordLength ast
    let parentContext := subqueryContext.parent.getD subqueryContext
    let dynamicSubqueryContext :=
      parentContext.createSubqueryContext subqueryKeywordLength
    let subqueryResult :=
      formatSelectStatementWithContext f opts ast dynamicSubqueryContext false
    if isWhereCtx then
      let originalParentContext := subqueryContext.parent.getD subqueryContext
      let baseIndent := originalParentContext.baseKeywordLength
      let compactIndent := spaces (max (baseIndent + 1) 2)
      let indentedSubquery :=
        joinNl ((strLines subqueryResult).map (fun line =>
          if trimJs line = "" then line else compactIndent ++ line))
      if skipParentheses then "\n" ++ indentedSubquery
      else
        "(\n" ++ indentedSubquery ++ "\n"
          ++ spaces (max (baseIndent + 1) 0) ++ ")"
    else
      let subqueryIndentString := dynamicSubqueryContext.getIndentString
      let indentedSubquery :=
        joinNl ((strLines subqueryResult).map (fun line =>
          if trimJs line = "" then line else subqueryIndentString ++ line))
      if skipParentheses then "\n" ++ indentedSubquery ++ "\n"
      else
        "(\n" ++ indentedSubquery ++ "\n"
          ++ spaces dynamicSubqueryContext.getClosingIndent ++ ")"

/-- `formatFunctionWithContext` (receives the node's name and args
fields). -/
def formatFunctionWithContext :
    Nat → FormatterOptions → Option FuncName → Option FuncArgs →
    IndentContext → String
  | 0, _, _, _, _ => ""
  | f + 1, opts, name, args, ctx =>
    let funcName := resolveFuncName name
    let argContext := ctx.createChildContext .function_arg
    match args with
    | some (.objList vs) =>
        if vs.length > 0 then
          funcName ++ "(" ++ joinSep ", "
            (vs.map (fun a => formatExpressionWithContext f opts a argContext))
            ++ ")"
        else funcName ++ "()"
    | some (.arrList vs) =>
        funcName ++ "(" ++ joinSep ", "
          (vs.map (fun a => formatExpressionWithContext f opts a argContext))
          ++ ")"
    | none => funcName ++ "()"

/-- `formatAggregateFunctionWithContext`. -/
def formatAggregateFunctionWithContext :
    Nat → FormatterOptions → String → Option AggrArgs → IndentContext → String
  | 0, _, _, _, _ => ""
  | f + 1, opts, name, args, ctx =>
    match args with
    | some (.mk distinct e) =>
        let distinctPart := match distinct with
          | some d => d ++ " "
          | none => ""
        let argStr := distinctPart ++
          (match e with
           | .star => "*"
           | _ =>
               formatExpressionWithContext f opts e
                 (ctx.createChildContext .function_arg))
        name ++ "(" ++ argStr ++ ")"
    | none => name ++ "()"

/-- `formatWindowFunctionWithContext` (the
`over.as_window_specification.window_specification` chain is collapsed into
the optional `WindowSpec`). -/
def formatWindowFunctionWithContext :
    Nat → FormatterOptions → String → Option WindowSpec → IndentContext →
    String
  | 0, _, _, _, _ => ""
  | f + 1, opts, name, over, ctx =>
    match over with
    | some (.mk pb ob) =>
        let partParts := match pb with
          | some cols =>
              ["PARTITION BY " ++ joinSep ", " (cols.map (fun c =>
                formatExpressionWithContext f opts c.expr
                  (ctx.createChildContext .function_arg)))]
          | none => []
        let ordParts := match ob with
          | some cols =>
              ["ORDER BY " ++ joinSep ", " (cols.map (fun c =>
                let res := formatExpressionWithContext f opts c.expr
                  (ctx.createChildContext .function_arg)
                match c.ty with
                | some t => if t = "ASC" ∨ t = "DESC" then res ++ " " ++ t
                            else res
                | none => res))]
          | none => []
        let parts := partParts ++ ordParts
        if parts.length > 0 then
          name ++ "()" ++ " OVER (" ++ joinSep " " parts ++ ")"
        else name ++ "()" ++ " OVER ()"
    | none => name ++ "()"

/-- `formatCastExpressionWithContext`. -/
def formatCastExpressionWithContext :
    Nat → FormatterOptions → Expr → Option String → Option String →
    IndentContext → String
  | 0, _, _, _, _, _ => ""
  | f + 1, opts, e, target, operator, ctx =>
    let expression := formatExpressionWithContext f opts e ctx
    let targetType := target.getD "UNKNOWN"
    if operator = some "::" then expression ++ "::" ++ targetType
    else "CAST(" ++ expression ++ " AS " ++ targetType ++ ")"

/-- `formatUnaryExpressionWithContext`. -/
def formatUnaryExpressionWithContext :
    Nat → FormatterOptions → String → Expr → IndentContext → String
  | 0, _, _, _, _ => ""
  | f + 1, opts, operator, e, ctx =>
    if notExistsPattern operator e then crashUndefinedAst
    else
      let operand := formatExpressionWithContext f opts e ctx
      if operator = "NOT" ∨ operator = "-" ∨ operator = "+"
          ∨ operator = "NOT EXISTS" then
        operator ++ " " ++ operand
      else operand ++ " " ++ operator

/-- `formatArrayExpressionWithContext`. -/
def formatArrayExpressionWithContext :
    Nat → FormatterOptions → Option (List Expr) → IndentContext → String
  | 0, _, _, _ => ""
  | f + 1, opts, v, ctx =>
    match v with
    | some vs =>
        "ARRAY[" ++ joinSep ", " (vs.map (fun el =>
          formatExpressionWithContext f opts el ctx)) ++ "]"
    | none => "ARRAY[]"

/-- `formatExprListWithContext`. -/
def formatExprListWithContext :
    Nat → FormatterOptions → Option (List Expr) → IndentContext → String
  | 0, _, _, _ => ""
  | f + 1, opts, v, ctx =>
    match v with
    | some vs =>
        if vs.any (fun x => x.astField.isSome) then
          let values := joinSep ", " (vs.map (fun x =>
            match x.astField with
            | some a =>
                formatSubqueryWithContext f opts a
                  (ctx.createSubqueryContext 6) true (isWhereContext ctx)
            | none =>
                formatExpressionWithContext f opts x
                  (ctx.createChildContext .function_arg)))
          "(" ++ values ++ "\n" ++ ctx.getClosingIndentString ++ ")"
        else
          "(" ++ joinSep ", " (vs.map (fun x =>
            formatExpressionWithContext f opts x
              (ctx.createChildContext .function_arg))) ++ ")"
    | none => "()"

/-- `formatMultilineValueList` (callers guarantee at least two values; on an
empty list the JS template would print the text `undefined`). -/
def formatMultilineValueList :
    Nat → FormatterOptions → List Expr → IndentContext → String
  | 0, _, _, _ => ""
  | f + 1, opts, values, ctx =>
    let formattedValues := values.map (fun v =>
      formatExpressionWithContext f opts v (ctx.createChildContext .function_arg))
    let firstValueIndent := spaces (ctx.baseKeywordLength + 3)
    let subsequentValueIndent := spaces (ctx.baseKeywordLength + 1)
    let closingIndent := spaces (ctx.baseKeywordLength + 1)
    match formattedValues with
    | [] => joinNl ["(", firstValueIndent ++ "undefined", closingIndent ++ ")"]
    | v0 :: rest =>
        joinNl (["(", firstValueIndent ++ v0]
          ++ rest.map (fun v => subsequentValueIndent ++ ", " ++ v)
          ++ [closingIndent ++ ")"])

/-- `handleUndefinedExpression` (nodes with `type: undefined`; the final arm
is unreachable from the dispatch). -/
def handleUndefinedExpression :
    Nat → FormatterOptions → Expr → IndentContext → String
  | 0, _, _, _ => ""
  | f + 1, opts, e, ctx =>
    match e with
    | .sub a =>
        formatSubqueryWithContext f opts a (ctx.createSubqueryContext 6) false
          (isWhereContext ctx)
    | .undefCols cols =>
        joinSep ", " (cols.map (fun c =>
          formatExpressionWithContext f opts c ctx))
    | .undefOther v => handleUnknownExpression v
    | _ => handleUnknownExpression none

/-- `SelectFormatter.formatSelectStatementWithContext`: recomputes the
shared keyword width at the root of a WITH-bearing statement, then joins
the clause parts. -/
def formatSelectStatementWithContext :
    Nat → FormatterOptions → Stmt → IndentContext → Bool → String
  | 0, _, _, _, _ => ""
  | f + 1, opts, stmt, ctx, useStandardFormat =>
    let actualContext :=
      if ctx.nestLevel = 0 ∧ ctx.contextType = IndentContextType.main
          ∧ stmt.withF.isSome then
        IndentContext.mk ctx.nestLevel ctx.contextType
          (calculateGlobalMaxKeywordLength stmt) ctx.parent false
      else ctx
    joinNl (selectStmtParts f opts stmt actualContext useStandardFormat)

/-- The `parts` array assembled by `formatSelectStatementWithContext`. -/
def selectStmtParts :
    Nat → FormatterOptions → Stmt → IndentContext → Bool → List String
  | 0, _, _, _, _ => []
  | f + 1, opts, stmt, ctx, u =>
    (match stmt.withF with
     | some wf => [formatWithClauseWithContext f opts wf ctx u]
     | none => [])
    ++ [formatSelectClauseWithContext f opts stmt ctx u]
    ++ (match stmt.fromF with
        | some fr => [formatFromClauseWithContext f opts fr ctx u]
        | none => [])
    ++ (match stmt.whereF with
        | some wh => [formatWhereClauseWithContext f opts wh ctx]
        | none => [])
    ++ (match stmt.groupbyF with
        | some gb => [formatGroupByClauseWithContext f opts gb ctx]
        | none => [])
    ++ (match stmt.havingF with
        | some hv => [formatHavingClauseWithContext f opts hv ctx]
        | none => [])
    ++ (match stmt.orderbyF with
        | some ob => [formatOrderByClauseWithContext f opts ob ctx]
        | none => [])
    ++ (match stmt.limitF with
        | some lim =>
            if lim.value.length > 0 then
              [formatLimitClauseWithContext f opts lim ctx]
            else []
        | none => [])
    ++ (match stmt.nextF, stmt.setOpF with
        | some nxt, some so =>
            [padStartJs (formatKeyword opts (toUpperJs so))
               ctx.baseKeywordLength,
             formatSelectStatementWithContext f opts nxt ctx u]
        | _, _ => [])

/-- `formatWithClauseWithContext`: the WITH header and the `AS (` wrappers
are emitted verbatim; every CTE body is rendered under a fresh
nestLevel-0 `main` context that carries the caller's `baseKeywordLength`. -/
def formatWithClauseWithContext :
    Nat → FormatterOptions → WithField → IndentContext → Bool → String
  | 0, _, _, _, _ => ""
  | f + 1, opts, wf, ctx, u =>
    match wf with
    | .malformed => formatKeyword opts "WITH" ++ " /* invalid CTE */"
    | .list ctes =>
        joinNl (ctes.enum.flatMap (fun ic =>
          let header :=
            if ic.1 = 0 then "WITH " ++ ic.2.displayName ++ " AS ("
            else ",    " ++ ic.2.displayName ++ " AS ("
          let bodyParts := match ic.2.query with
            | some q =>
                [formatSelectStatementWithContext f opts q
                   (IndentContext.mk 0 IndentContextType.main
                     ctx.baseKeywordLength ctx.parent false) u]
            | none => []
          header :: bodyParts ++ [")"]))

/-- `formatSelectClauseWithContext`. -/
def formatSelectClauseWithContext :
    Nat → FormatterOptions → Stmt → IndentContext → Bool → String
  | 0, _, _, _, _ => ""
  | f + 1, opts, stmt, ctx, useStandardFormat =>
    let keyword := formatKeyword opts "SELECT"
    match stmt.columnsF with
    | none => keyword
    | some cols =>
      if cols.length = 0 then keyword
      else
        let selectKeyword := padStartJs keyword ctx.baseKeywordLength
        let selectContext := ctx.createSiblingContext .select_clause
        let formattedColumns :=
          formatColumnsWithAliasAlignment f opts cols selectContext
        match formattedColumns with
        | [] => joinNl []
        | [c0] =>
            if useStandardFormat then
              selectKeyword ++ "\n" ++ spaces (ctx.baseKeywordLength + 1) ++ c0
            else selectKeyword ++ " " ++ c0
        | c0 :: c1 :: rest =>
            if useStandardFormat = false then
              joinNl ((selectKeyword ++ " " ++ c0) ::
                (c1 :: rest).map (fun c =>
                  spaces (ctx.baseKeywordLength - 1) ++ ", " ++ c))
            else
              joinNl (selectKeyword ::
                (spaces (ctx.baseKeywordLength + 1) ++ c0) ::
                (c1 :: rest).map (fun c =>
                  spaces (ctx.baseKeywordLength - 1) ++ ", " ++ c))

/-- `formatColumnsWithAliasAlignment`. -/
def formatColumnsWithAliasAlignment :
    Nat → FormatterOptions → List Col → IndentContext → List String
  | 0, _, _, _ => []
  | f + 1, opts, columns, ctx =>
    let columnData := columns.map (fun col =>
      (formatColumnExpression f opts col ctx, col.asName))
    let hasAnyAlias := columnData.any (fun d => d.2.isSome)
    if hasAnyAlias = false then columnData.map (fun d => d.1)
    else
      let maxExpressionLength := listMax (columnData.map (fun d => d.1.length))
      columnData.map (fun d =>
        match d.2 with
        | some a =>
            d.1 ++ spaces (maxExpressionLength - d.1.length) ++ " AS " ++ a
        | none => d.1)

/-- `formatColumnExpression` (all three JS field shapes format the column's
expression; `Col` carries it directly). -/
def formatColumnExpression :
    Nat → FormatterOptions → Col → IndentContext → String
  | 0, _, _, _ => ""
  | f + 1, opts, col, ctx => formatExpressionWithContext f opts col.expr ctx

/-- `formatFromClauseWithContext` (a singleton FROM list can never satisfy
`hasJoin`, which only inspects indices above 0, so the split is exactly on
the list length). -/
def formatFromClauseWithContext :
    Nat → FormatterOptions → List TableRef → IndentContext → Bool → String
  | 0, _, _, _, _ => ""
  | f + 1, opts, fromClause, ctx, u =>
    let keyword := padStartJs (formatKeyword opts "FROM") ctx.baseKeywordLength
    match fromClause with
    | [table] => keyword ++ " " ++ formatTableWithContext f opts table ctx u
    | _ =>
        keyword ++ " " ++ formatComplexFromWithContext f opts fromClause ctx u

/-- `formatComplexFromWithContext`. -/
def formatComplexFromWithContext :
    Nat → FormatterOptions → List TableRef → IndentContext → Bool → String
  | 0, _, _, _, _ => ""
  | f + 1, opts, fromClause, ctx, u =>
    match fromClause with
    | [] => joinNl []
    | t0 :: rest =>
        joinNl (formatTableWithContext f opts t0 ctx u ::
          rest.flatMap (fun t =>
            match t.joinF with
            | some j =>
                let joinLine :=
                  padStartJs (formatKeyword opts j) ctx.baseKeywordLength
                    ++ " " ++ formatTableWithContext f opts t ctx u
                (match t.onCond with
                 | some cond =>
                     joinLine :: formatJoinConditionWithContext f opts cond ctx
                       (ctx.createSiblingContext .join_condition)
                 | none => [joinLine])
            | none => [formatTableWithContext f opts t ctx u]))

/-- `formatJoinConditionWithContext`. -/
def formatJoinConditionWithContext :
    Nat → FormatterOptions → Expr → IndentContext → IndentContext →
    List String
  | 0, _, _, _, _ => []
  | f + 1, opts, condition, ctx, joinCtx =>
    formatJoinConditionRecursiveWithContext f opts condition ctx joinCtx true

/-- `formatJoinConditionRecursiveWithContext`. -/
def formatJoinConditionRecursiveWithContext :
    Nat → FormatterOptions → Expr → IndentContext → IndentContext → Bool →
    List String
  | 0, _, _, _, _, _ => []
  | f + 1, opts, condition, ctx, joinCtx, isFirst =>
    match condition with
    | .binary_expr op l r =>
        if op = "AND" then
          formatJoinConditionRecursiveWithContext f opts l ctx joinCtx isFirst
            ++ formatJoinConditionRecursiveWithContext f opts r ctx joinCtx
                false
        else
          [padStartJs (formatKeyword opts (if isFirst then "ON" else "AND"))
             ctx.baseKeywordLength ++ " "
             ++ formatExpressionWithContext f opts condition joinCtx]
    | _ =>
        [padStartJs (formatKeyword opts (if isFirst then "ON" else "AND"))
           ctx.baseKeywordLength ++ " "
           ++ formatExpressionWithContext f opts condition joinCtx]

/-- `formatTableWithContext` (the `try/catch` cannot fire in the total
embedding; the `console.warn` fallback is the `weird` arm). -/
def formatTableWithContext :
    Nat → FormatterOptions → TableRef → IndentContext → Bool → String
  | 0, _, _, _, _ => ""
  | f + 1, opts, table, ctx, u =>
    let base :=
      match table.source with
      | .subAst ast =>
          let subqueryKeywordLength :=
            if calculateSubqueryKeywordLength ast ≤ 6 then 8
            else calculateSubqueryKeywordLength ast
          let subqueryContext :=
            IndentContext.mk (ctx.nestLevel + 1) .subquery
              subqueryKeywordLength (some ctx) false
          let formattedSubquery :=
            formatSelectStatementWithContext f opts ast subqueryContext u
          let baseIndent := spaces (ctx.baseKeywordLength + 1)
          let indentedSubquery := joinNl
            (match strLines formattedSubquery with
             | [] => []
             | l0 :: rest =>
                 (if trimJs l0 = "SELECT" then
                    spaces (subqueryKeywordLength - ctx.baseKeywordLength - 2)
                      ++ trimJs l0
                  else if trimJs l0 = "" then l0 else baseIndent ++ l0)
                 :: rest.map (fun line =>
                      if trimJs line = "" then line else baseIndent ++ line))
          "( " ++ indentedSubquery ++ "\n" ++ baseIndent ++ ")"
      | .named tbl => tbl
      | .weird nm vl => nm.getD (vl.getD "unknown_table")
    match table.asName with
    | some a => base ++ " AS " ++ a
    | none => base

/-- `formatWhereClauseWithContext`. -/
def formatWhereClauseWithContext :
    Nat → FormatterOptions → Expr → IndentContext → String
  | 0, _, _, _ => ""
  | f + 1, opts, whereClause, ctx =>
    padStartJs (formatKeyword opts "WHERE") ctx.baseKeywordLength ++ " "
      ++ formatExpressionWithContext f opts whereClause
          (ctx.createSiblingContext .where_clause)

/-- `formatGroupByClauseWithContext` (a non-array payload is wrapped into a
singleton). -/
def formatGroupByClauseWithContext :
    Nat → FormatterOptions → GroupByField → IndentContext → String
  | 0, _, _, _ => ""
  | f + 1, opts, gb, ctx =>
    let cols := match gb with
      | .arr l => l
      | .single e => [e]
    padStartJs (formatKeyword opts "GROUP BY") ctx.baseKeywordLength ++ " "
      ++ joinSep ", " (cols.map (fun c =>
           formatExpressionWithContext f opts c ctx))

/-- `formatHavingClauseWithContext` (the condition is rendered in the
caller's context, not a derived one). -/
def formatHavingClauseWithContext :
    Nat → FormatterOptions → Expr → IndentContext → String
  | 0, _, _, _ => ""
  | f + 1, opts, havingClause, ctx =>
    padStartJs (formatKeyword opts "HAVING") ctx.baseKeywordLength ++ " "
      ++ formatExpressionWithContext f opts havingClause ctx

/-- `formatOrderByClauseWithContext`. -/
def formatOrderByClauseWithContext :
    Nat → FormatterOptions → List OrdItem → IndentContext → String
  | 0, _, _, _ => ""
  | f + 1, opts, orderByClause, ctx =>
    padStartJs (formatKeyword opts "ORDER BY") ctx.baseKeywordLength ++ " "
      ++ joinSep ", " (orderByClause.map (fun col =>
           let res := formatExpressionWithContext f opts col.expr ctx
           match col.ty with
           | some t => if t = "ASC" ∨ t = "DESC" then res ++ " " ++ t else res
           | none => res))

/-- `formatLimitClauseWithContext`. -/
def formatLimitClauseWithContext :
    Nat → FormatterOptions → LimitClause → IndentContext → String
  | 0, _, _, _ => ""
  | f + 1, opts, limitClause, ctx =>
    let keyword := padStartJs (formatKeyword opts "LIMIT") ctx.baseKeywordLength
    let limitValue := match limitClause.value[0]? with
      | some v => formatExpressionWithContext f opts v ctx
      | none => ""
    if limitClause.seperator = some "offset" ∧ 1 < limitClause.value.length then
      let offsetValue := match limitClause.value[1]? with
        | some v => formatExpressionWithContext f opts v ctx
        | none => ""
      keyword ++ " " ++ limitValue ++ " OFFSET " ++ offsetValue
    else keyword ++ " " ++ limitValue

end

/-! ## src/formatter.ts — the SqlFormatter orchestrator

`parser.astify` belongs to the external `node-sql-parser` package, and the
per-statement dispatch (`formatStatement`) can throw on unsupported
statement kinds; both are modelled as `Except`-valued parameters so the
orchestrator's catch-all behaviour is proved for every parser and every
renderer.  The hint-comment regexes are translated to character scanning. -/

/-- JS `\w` (ASCII word character). -/
def isWordChar (c : Char) : Bool := c.isAlphanum || c = '_'

/-- Scan to the first `*/`, returning the comment body and the remainder
(the lazy `.*?\*\/` of the hint regex). -/
def splitCommentEnd : List Char → Option (List Char × List Char)
  | [] => none
  | '*' :: '/' :: rest => some ([], rest)
  | c :: rest =>
      match splitCommentEnd rest with
      | some p => some (c :: p.1, p.2)
      | none => none

/-- `extractHintComment`: matches
`^(\s*)(\w+)(\s*)(\/\*.*?\*\/)(.*)$` (with `s` flag) and removes the hint,
returning the cleaned SQL and the hint text; on no match the input is
returned unchanged with no hint. -/
def extractHintComment (sql : String) : String × Option String :=
  let cs := sql.data
  let lead := cs.takeWhile Char.isWhitespace
  let rest1 := cs.dropWhile Char.isWhitespace
  let word := rest1.takeWhile isWordChar
  let rest2 := rest1.dropWhile isWordChar
  if word = [] then (sql, none)
  else
    let sp := rest2.takeWhile Char.isWhitespace
    let rest3 := rest2.dropWhile Char.isWhitespace
    match rest3 with
    | '/' :: '*' :: tail =>
        match splitCommentEnd tail with
        | some p =>
            (String.mk (lead ++ word ++ sp ++ p.2),
             some ("/*" ++ String.mk p.1 ++ "*/"))
        | none => (sql, none)
    | _ => (sql, none)

/-- `restoreHintComment`: matches `^(\s*)(\w+)(\s+)` and splices the hint
after the first keyword; on no match the input is returned unchanged. -/
def restoreHintComment (sql : String) (hint : String) : String :=
  let cs := sql.data
  let lead := cs.takeWhile Char.isWhitespace
  let rest1 := cs.dropWhile Char.isWhitespace
  let word := rest1.takeWhile isWordChar
  let rest2 := rest1.dropWhile isWordChar
  let sp := rest2.takeWhile Char.isWhitespace
  let rest3 := rest2.dropWhile Char.isWhitespace
  if word = [] ∨ sp = [] then sql
  else
    String.mk lead ++ String.mk word ++ " " ++ hint ++ String.mk sp
      ++ String.mk rest3

/-- The value returned by `parser.astify`: a single statement object or an
array of statements (`Array.isArray(ast) ? ast : [ast]`). -/
inductive ParseResult where
  | single (s : Stmt)
  | multiple (l : List Stmt)

/-- `Array.isArray(ast) ? ast : [ast]`. -/
def ParseResult.toStatements : ParseResult → List Stmt
  | .single s => [s]
  | .multiple l => l

/-- The body of the `try` block of `SqlFormatter.formatSql`, with the
external parse and the per-statement formatter as `Except`-valued
parameters; any `.error` models a thrown exception. -/
def formatSqlCore (parse : String → Except String ParseResult)
    (formatStatement : Stmt → Except String String) (sql : String) :
    Except String String := do
  let extracted := extractHintComment sql
  let ast ← parse extracted.1
  let statements := ast.toStatements
  if statements.length = 0 then
    throw "No valid SQL statements found"
  else
    let formattedStatements ← statements.mapM formatStatement
    let result := joinSep "\n\n" formattedStatements
    let result := match extracted.2 with
      | some hint => restoreHintComment result hint
      | none => result
    pure (if endsWithJs result ";" then result else result ++ ";")

/-- `SqlFormatter.formatSql`: the catch-all returns the original SQL. -/
def formatSql (parse : String → Except String ParseResult)
    (formatStatement : Stmt → Except String String) (sql : String) : String :=
  match formatSqlCore parse formatStatement sql with
  | .ok r => r
  | .error _ => sql

/-! ## Apparatus for the claims: spec-side definitions and sample inputs -/

/-- The contextKind-specific adjustment added by `getContextIndent` on top
of `getBaseIndent` (spec-side restatement of the switch). -/
def contextAdjustment : IndentContextType → Nat
  | .main => 0
  | .select_clause => 1
  | .where_clause => 1
  | .case_when => 3
  | .function_arg => 1
  | .subquery => 1
  | .join_condition => 0

/-- The stopping test of `flattenAndOrConditions`: a binary node carrying
the flattened operator. -/
def isOpNode (op : String) : Expr → Bool
  | .binary_expr o _ _ => o == op
  | _ => false

/-- A condition tree built from `d` nested applications of the operator
`op`: leaves are exactly the nodes on which `flattenAndOrConditions`
stops. -/
inductive ChainOf (op : String) : Expr → Nat → Prop where
  | leaf (e : Expr) (h : isOpNode op e = false) : ChainOf op e 0
  | node (l r : Expr) (dl dr : Nat) :
      ChainOf op l dl → ChainOf op r dr →
      ChainOf op (.binary_expr op l r) (dl + dr + 1)

/-- Sample statement `SELECT id FROM t`. -/
def sampleSubSelect : Stmt :=
  .select none [Col.mk (.column_ref none (.str "id")) none]
    (some [TableRef.mk (.named "t") none none none])
    none none none none none none none

/-- A nestLevel-0 WHERE-clause context of width 6. -/
def sampleWhereCtx : IndentContext := .mk 0 .where_clause 6 none false

/-- Sample statement `WITH c AS (SELECT id FROM t) SELECT name FROM c`. -/
def sampleWithStmt : Stmt :=
  .select (some (.list [Cte.mk (some (.plain "c")) (some (.direct sampleSubSelect))]))
    [Col.mk (.column_ref none (.str "name")) none]
    (some [TableRef.mk (.named "c") none none none])
    none none none none none none none

/-! ### String and list infrastructure lemmas -/

theorem strData_append (s t : String) : (s ++ t).data = s.data ++ t.data := by
  cases s; cases t; rfl

theorem strMk_eta (s : String) : String.mk s.data = s := by
  cases s; rfl

theorem singleLine_spaces (n : Nat) : singleLine (spaces n) := by
  unfold singleLine spaces
  intro h
  have := List.eq_of_mem_replicate h
  simp at this

theorem singleLine_append {a b : String} (ha : singleLine a) (hb : singleLine b) :
    singleLine (a ++ b) := by
  unfold singleLine at *
  rw [strData_append]
  intro h
  rcases List.mem_append.mp h with h | h
  · exact ha h
  · exact hb h

theorem not_singleLine_middle (a b : String) : ¬ singleLine (a ++ "\n" ++ b) := by
  unfold singleLine
  intro h
  apply h
  rw [strData_append, strData_append]
  exact List.mem_append.mpr (Or.inl (List.mem_append.mpr (Or.inr (by decide))))

theorem linesData_cons (c : Char) (rest : List Char) :
    linesData (c :: rest) =
      match linesData rest with
      | [] => [[]]
      | l :: ls => if c = '\n' then [] :: l :: ls else (c :: l) :: ls := rfl

theorem linesData_cons_eq (c : Char) (rest l : List Char)
    (ls : List (List Char)) (h : linesData rest = l :: ls) :
    linesData (c :: rest) = if c = '\n' then [] :: l :: ls else (c :: l) :: ls := by
  rw [linesData_cons, h]

theorem linesData_ne_nil (cs : List Char) : linesData cs ≠ [] := by
  induction cs with
  | nil => simp [linesData]
  | cons c rest ih =>
      cases hrec : linesData rest with
      | nil => exact absurd hrec ih
      | cons l ls =>
          rw [linesData_cons_eq c rest l ls hrec]
          split <;> simp

theorem linesData_no_newline (cs : List Char) (h : '\n' ∉ cs) :
    linesData cs = [cs] := by
  induction cs with
  | nil => rfl
  | cons c rest ih =>
      have hc : c ≠ '\n' := fun hh => h (hh ▸ List.mem_cons_self c rest)
      have hr : '\n' ∉ rest := fun hh => h (List.mem_cons_of_mem c hh)
      rw [linesData_cons_eq c rest rest [] (ih hr)]
      simp [hc]

theorem linesData_append_cons (xs ys : List Char) (h : '\n' ∉ xs) :
    linesData (xs ++ '\n' :: ys) = xs :: linesData ys := by
  induction xs with
  | nil =>
      simp only [List.nil_append]
      cases hy : linesData ys with
      | nil => exact absurd hy (linesData_ne_nil ys)
      | cons l ls =>
          rw [linesData_cons_eq '\n' ys l ls hy]
          simp [hy]
  | cons c xs ih =>
      have hc : c ≠ '\n' := fun hh => h (hh ▸ List.mem_cons_self c xs)
      have hx : '\n' ∉ xs := fun hh => h (List.mem_cons_of_mem c hh)
      simp only [List.cons_append]
      cases hrec : linesData (xs ++ '\n' :: ys) with
      | nil => exact absurd hrec (linesData_ne_nil _)
      | cons l ls =>
          rw [linesData_cons_eq c (xs ++ '\n' :: ys) l ls hrec]
          rw [ih hx] at hrec
          cases hrec
          simp [hc]

theorem linesData_append_tail (xs ys : List Char) :
    2 ≤ (linesData (xs ++ '\n' :: ys)).length
    ∧ (linesData (xs ++ '\n' :: ys)).getLast? = (linesData ys).getLast? := by
  induction xs with
  | nil =>
      simp only [List.nil_append]
      cases hy : linesData ys with
      | nil => exact absurd hy (linesData_ne_nil ys)
      | cons l ls =>
          rw [linesData_cons_eq '\n' ys l ls hy]
          simp [hy]
  | cons c xs ih =>
      simp only [List.cons_append] at *
      cases hrec : linesData (xs ++ '\n' :: ys) with
      | nil => exact absurd hrec (linesData_ne_nil _)
      | cons l ls =>
          rw [hrec] at ih
          rw [linesData_cons_eq c (xs ++ '\n' :: ys) l ls hrec]
          match ls, ih with
          | l2 :: ls2, ⟨hlen, hlast⟩ =>
              constructor
              · split <;> simp
              · split
                · rw [List.getLast?_cons_cons, ← hlast, List.getLast?_cons_cons]
                · rw [List.getLast?_cons_cons, ← hlast, List.getLast?_cons_cons]

theorem strLines_concat (x r : String) (hx : singleLine x) :
    strLines (x ++ "\n" ++ r) = x :: strLines r := by
  unfold strLines
  have hdata : (x ++ "\n" ++ r).data = x.data ++ '\n' :: r.data := by
    rw [strData_append, strData_append]
    simp
  rw [hdata, linesData_append_cons x.data r.data hx]
  simp [strMk_eta]

theorem strLines_single (s : String) (h : singleLine s) : strLines s = [s] := by
  unfold strLines
  rw [linesData_no_newline s.data h]
  simp [strMk_eta]

theorem joinNl_cons_cons (a b : String) (t : List String) :
    joinNl (a :: b :: t) = a ++ "\n" ++ joinNl (b :: t) := rfl

theorem strLines_joinNl (parts : List String) (hne : parts ≠ [])
    (h : ∀ p ∈ parts, singleLine p) : strLines (joinNl parts) = parts := by
  induction parts with
  | nil => exact absurd rfl hne
  | cons x t ih =>
      match t with
      | [] =>
          show strLines x = [x]
          exact strLines_single x (h x (List.mem_cons_self x []))
      | y :: t2 =>
          rw [joinNl_cons_cons]
          rw [strLines_concat _ _ (h x (List.mem_cons_self x _))]
          congr 1
          exact ih (by simp) (fun p hp => h p (List.mem_cons_of_mem x hp))

theorem getLast?_map {α β : Type} (f : α → β) (l : List α) :
    (l.map f).getLast? = l.getLast?.map f := by
  induction l with
  | nil => rfl
  | cons x t ih =>
      match t with
      | [] => rfl
      | y :: t2 =>
          simp only [List.map_cons] at *
          rw [List.getLast?_cons_cons, List.getLast?_cons_cons, ih]

theorem strLines_getLast_concat (x q : String) (hq : singleLine q) :
    (strLines (x ++ "\n" ++ q)).getLast? = some q := by
  unfold strLines
  have hdata : (x ++ "\n" ++ q).data = x.data ++ '\n' :: q.data := by
    rw [strData_append, strData_append]
    simp
  rw [hdata, getLast?_map]
  rw [(linesData_append_tail x.data q.data).2]
  rw [linesData_no_newline q.data hq]
  simp [strMk_eta]

theorem le_listMax {l : List Nat} {x : Nat} (h : x ∈ l) : x ≤ listMax l := by
  induction l with
  | nil => simp at h
  | cons y t ih =>
      unfold listMax
      rcases List.mem_cons.mp h with h | h
      · exact h ▸ Nat.le_max_left _ _
      · exact Nat.le_trans (ih h) (Nat.le_max_right _ _)

theorem listMax_mem {l : List Nat} (h : l ≠ []) : listMax l ∈ l := by
  induction l with
  | nil => exact absurd rfl h
  | cons y t ih =>
      unfold listMax
      match t with
      | [] => simp [listMax]
      | z :: t2 =>
          rcases Nat.le_total (listMax (z :: t2)) y with hle | hle
          · simp [Nat.max_eq_left hle]
          · rw [Nat.max_eq_right hle]
            exact List.mem_cons_of_mem y (ih (by simp))

theorem char_toNat_ofNat (n : Nat) (h : Nat.isValidChar n) :
    (Char.ofNat n).toNat = n := by
  unfold Char.ofNat Char.ofNatAux Char.toNat
  rw [dif_pos h]
  simp [UInt32.toNat, UInt32.ofNatCore]

theorem isUpper_eq_toNat (c : Char) :
    c.isUpper = (decide (65 ≤ c.toNat) && decide (c.toNat ≤ 90)) := by
  unfold Char.isUpper Char.toNat
  congr 1

theorem isLower_eq_toNat (c : Char) :
    c.isLower = (decide (97 ≤ c.toNat) && decide (c.toNat ≤ 122)) := by
  unfold Char.isLower Char.toNat
  congr 1

theorem toLower_isUpper_false (c : Char) : (Char.toLower c).isUpper = false := by
  unfold Char.toLower
  by_cases h : c.toNat ≥ 65 ∧ c.toNat ≤ 90
  · rw [if_pos h, isUpper_eq_toNat, char_toNat_ofNat _ (Or.inl (by omega))]
    simp only [Bool.and_eq_false_iff, decide_eq_false_iff_not]
    right; omega
  · rw [if_neg h, isUpper_eq_toNat]
    simp only [Bool.and_eq_false_iff, decide_eq_false_iff_not]
    omega

theorem toUpper_isLower_false (c : Char) : (Char.toUpper c).isLower = false := by
  unfold Char.toUpper
  by_cases h : c.toNat ≥ 97 ∧ c.toNat ≤ 122
  · rw [if_pos h, isLower_eq_toNat, char_toNat_ofNat _ (Or.inl (by omega))]
    simp only [Bool.and_eq_false_iff, decide_eq_false_iff_not]
    left; omega
  · rw [if_neg h, isLower_eq_toNat]
    simp only [Bool.and_eq_false_iff, decide_eq_false_iff_not]
    omega

theorem flatten_not_opNode (e : Expr) (op : String) (h : isOpNode op e = false) :
    flattenAndOrConditions e op = [e] := by
  cases e <;> simp [flattenAndOrConditions]
  next o l r =>
    intro ho
    exact absurd (by simp [isOpNode, ho]) (h ▸ Bool.false_ne_true)

theorem flatten_opNode (l r : Expr) (op : String) :
    flattenAndOrConditions (.binary_expr op l r) op =
      flattenAndOrConditions l op ++ flattenAndOrConditions r op := by
  simp [flattenAndOrConditions]

theorem chainOf_flatten_length {op : String} {e : Expr} {d : Nat}
    (h : ChainOf op e d) : (flattenAndOrConditions e op).length = d + 1 := by
  induction h with
  | leaf e he => rw [flatten_not_opNode e op he]; rfl
  | node l r dl dr hl hr ihl ihr =>
      rw [flatten_opNode, List.length_append, ihl, ihr]
      omega

/-! ### Claim C3 — indentWidth -/

/-- Claim C3 states that `indentWidth()` (`getContextIndent`) returns exactly
`baseKeywordWidth` whenever `nestLevel = 0`, regardless of the contextKind.
On the nestLevel-0 `case_when` context of width 6 the code returns 9, not
6: the contextKind adjustment is applied at every nest level. -/
theorem claim_c3_counterexample :
    (IndentContext.mk 0 .case_when 6 none false).getContextIndent = 9
    ∧ (9 : Nat) ≠ 6 := by
  constructor
  · rfl
  · decide

/-- Claim C3 (amended): `getContextIndent` returns `getBaseIndent` plus the
contextKind-specific adjustment (+3 case_when; +1 select_clause,
where_clause, function_arg, subquery; +0 main, join_condition) at every
nest level — including nestLevel 0, where `getBaseIndent` is
`baseKeywordWidth`; at deeper levels `getBaseIndent` is
`baseKeywordWidth + nestLevel*2`. -/
theorem claim_c3_amended (n : Nat) (t : IndentContextType) (b : Nat)
    (p : Option IndentContext) (fs : Bool) :
    (IndentContext.mk n t b p fs).getContextIndent
      = (if n = 0 then b else b + n * 2) + contextAdjustment t := by
  cases t <;>
    simp [IndentContext.getContextIndent, IndentContext.getBaseIndent,
      IndentContext.nestLevel, IndentContext.baseKeywordLength,
      IndentContext.contextType, contextAdjustment]

/-! ### Claim C2 — keyword width analyzer -/

theorem listMax_length_spec (l : List String) (h : l ≠ []) :
    ∃ k ∈ l, listMax (l.map String.length) = k.length
      ∧ ∀ k2 ∈ l, k2.length ≤ k.length := by
  have hm : listMax (l.map String.length) ∈ l.map String.length := by
    apply listMax_mem
    simp [h]
  obtain ⟨k, hk, hkl⟩ := List.mem_map.mp hm
  refine ⟨k, hk, hkl.symm, fun k2 h2 => ?_⟩
  rw [hkl]
  exact le_listMax (List.mem_map_of_mem _ h2)

/-- Claim C2 states the analyzer falls back to 6 on an empty keyword set;
`calculateGlobalMaxKeywordLength` falls back to 0 (the 6 belongs to
`calculateSubqueryKeywordLength`).  A statement of an unhandled kind
collects no keywords and gets width 0. -/
theorem claim_c2_counterexample :
    calculateGlobalMaxKeywordLength (Stmt.other "create") = 0
    ∧ (0 : Nat) ≠ 6 := by
  constructor
  · rfl
  · decide

/-- Claim C2 (amended): both analyzers return the maximum character length
over their collected keyword set when it is nonempty; on an empty set
`calculateGlobalMaxKeywordLength` returns 0 while
`calculateSubqueryKeywordLength` returns the fallback constant 6. -/
theorem claim_c2_amended (stmt : Stmt) :
    (globalKeywords stmt = [] → calculateGlobalMaxKeywordLength stmt = 0)
    ∧ (globalKeywords stmt ≠ [] →
        ∃ k ∈ globalKeywords stmt,
          calculateGlobalMaxKeywordLength stmt = k.length
          ∧ ∀ k2 ∈ globalKeywords stmt, k2.length ≤ k.length)
    ∧ (collectKeywordsFromStatement stmt = [] →
        calculateSubqueryKeywordLength stmt = 6)
    ∧ (collectKeywordsFromStatement stmt ≠ [] →
        ∃ k ∈ collectKeywordsFromStatement stmt,
          calculateSubqueryKeywordLength stmt = k.length
          ∧ ∀ k2 ∈ collectKeywordsFromStatement stmt,
              k2.length ≤ k.length) := by
  refine ⟨?_, ?_, ?_, ?_⟩
  · intro h
    unfold calculateGlobalMaxKeywordLength
    simp [h]
  · intro h
    unfold calculateGlobalMaxKeywordLength
    have : (globalKeywords stmt).length > 0 := List.length_pos.mpr h
    simp only [this, if_pos]
    exact listMax_length_spec _ h
  · intro h
    unfold calculateSubqueryKeywordLength
    simp [h]
  · intro h
    unfold calculateSubqueryKeywordLength
    have : (collectKeywordsFromStatement stmt).length > 0 := List.length_pos.mpr h
    simp only [this, if_pos]
    exact listMax_length_spec _ h

theorem claim_c2_amended_witness :
    calculateGlobalMaxKeywordLength (Stmt.other "create") = 0
    ∧ calculateSubqueryKeywordLength (Stmt.other "create") = 6 :=
  ⟨(claim_c2_amended (Stmt.other "create")).1 rfl,
   (claim_c2_amended (Stmt.other "create")).2.2.1 rfl⟩

/-! ### Claim C8 — total fallback of the expression dispatch -/

/-- Claim C8 (amended): on any node whose type tag matches no known variant
(and on `type: undefined` nodes with neither an `ast` nor a `columns`
field) the dispatch lands in `handleUnknownExpression`, which returns
`String(node.value)` when a value is present and the placeholder comment
otherwise, without raising.  The stronger claim that the renderer never
raises on any expression node is refuted by the NOT EXISTS unary branch
(see the counterexample below). -/
theorem claim_c8_fallback (f : Nat) (opts : FormatterOptions) (tag : String)
    (v : Option JsVal) (ctx : IndentContext) :
    formatExpressionWithContext (f + 1) opts (.unknownE tag v) ctx
      = handleUnknownExpression v
    ∧ formatExpressionWithContext (f + 2) opts (.undefOther v) ctx
      = handleUnknownExpression v
    ∧ handleUnknownExpression v
      = (match v with
         | some jv => jv.toJsString
         | none => "/* unsupported expression */") := by
  refine ⟨rfl, rfl, ?_⟩
  cases v <;> rfl

/-- Claim C8 counterexample: the never-raises part of the claim fails.  On
a unary NOT applied to an EXISTS(subquery) function node, the source calls
`formatSubqueryWithContext(expr.expr.ast, ...)` with `expr.expr.ast`
undefined (the EXISTS function node has no `ast` property); the callee
immediately dereferences `stmt.type` of `undefined` and a TypeError
propagates out of `formatExpressionWithContext`.  The embedding marks that
raise with the `crashUndefinedAst` sentinel, which the render of this node
returns. -/
theorem claim_c8_counterexample :
    formatExpressionWithContext 2 ⟨2, .upper⟩
      (.unary_expr "NOT"
        (.funcE (some (.parts ["EXISTS"]))
          (some (.objList [.sub sampleSubSelect]))))
      sampleWhereCtx
    = crashUndefinedAst := rfl

/-! ### Claim C5 — NOT BETWEEN encodings -/

/-- Claim C5 states the three AST encodings of NOT BETWEEN render to
byte-identical text.  The unary encoding (`NOT` unary wrapping a BETWEEN
binary) renders with a `NOT ` prefix instead of an infix `NOT BETWEEN`,
so it differs from the other two. -/
theorem claim_c5_counterexample :
    formatExpressionWithContext 10 ⟨2, .upper⟩
      (.binary_expr "NOT BETWEEN" (.column_ref none (.str "a"))
        (.expr_list (some [.numberE 1, .numberE 2]))) sampleWhereCtx
      = "a NOT BETWEEN 1 AND 2"
    ∧ formatExpressionWithContext 10 ⟨2, .upper⟩
      (.unary_expr "NOT" (.binary_expr "BETWEEN" (.column_ref none (.str "a"))
        (.expr_list (some [.numberE 1, .numberE 2])))) sampleWhereCtx
      = "NOT a BETWEEN 1 AND 2"
    ∧ ("NOT a BETWEEN 1 AND 2" : String) ≠ "a NOT BETWEEN 1 AND 2" := by
  refine ⟨by decide, by decide, by decide⟩

/-- Claim C5 (amended): the binary `NOT BETWEEN` encoding and the binary
`NOT`-wrapping-BETWEEN encoding render to the byte-identical
`<left> NOT BETWEEN <value1> AND <value2>` (given operand renders that are
stable at the two fuel depths the two paths use), while the `NOT` unary
expression wrapping a BETWEEN binary renders as
`NOT <left> BETWEEN <value1> AND <value2>`. -/
theorem claim_c5_amended (m : Nat) (opts : FormatterOptions)
    (l v1 v2 : Expr) (ctx : IndentContext) (V1 V2 : String)
    (h1 : formatExpressionWithContext m opts v1 ctx = V1)
    (h2 : formatExpressionWithContext (m + 1) opts v1 ctx = V1)
    (h3 : formatExpressionWithContext m opts v2 ctx = V2)
    (h4 : formatExpressionWithContext (m + 1) opts v2 ctx = V2) :
    (formatExpressionWithContext (m + 4) opts
        (.binary_expr "NOT BETWEEN" l (.expr_list (some [v1, v2]))) ctx
      = formatExpressionWithContext (m + 2) opts l ctx
        ++ " NOT BETWEEN " ++ V1 ++ " AND " ++ V2)
    ∧ (formatExpressionWithContext (m + 4) opts
        (.binary_expr "NOT" l
          (.binary_expr "BETWEEN" l (.expr_list (some [v1, v2])))) ctx
      = formatExpressionWithContext (m + 2) opts l ctx
        ++ " NOT BETWEEN " ++ V1 ++ " AND " ++ V2)
    ∧ (formatExpressionWithContext (m + 4) opts
        (.unary_expr "NOT"
          (.binary_expr "BETWEEN" l (.expr_list (some [v1, v2])))) ctx
      = "NOT " ++ formatExpressionWithContext (m + 2) opts
          (.binary_expr "BETWEEN" l (.expr_list (some [v1, v2]))) ctx) := by
  refine ⟨?_, ?_, ?_⟩
  · show formatBinaryExpressionWithContext (m + 3) opts "NOT BETWEEN" l
      (.expr_list (some [v1, v2])) ctx = _
    show formatBinaryTail (m + 2) opts "NOT BETWEEN" l
      (.expr_list (some [v1, v2]))
      (formatExpressionWithContext (m + 2) opts l ctx) ctx = _
    show handleDirectNotBetweenOperator (m + 1) opts
      (.expr_list (some [v1, v2]))
      (formatExpressionWithContext (m + 2) opts l ctx) ctx = _
    show formatExpressionWithContext (m + 2) opts l ctx ++ " NOT BETWEEN "
      ++ formatExpressionWithContext m opts v1 ctx ++ " AND "
      ++ formatExpressionWithContext m opts v2 ctx = _
    rw [h1, h3]
  · show formatBinaryExpressionWithContext (m + 3) opts "NOT" l
      (.binary_expr "BETWEEN" l (.expr_list (some [v1, v2]))) ctx = _
    show handleNotBetweenOperator (m + 2) opts
      (.binary_expr "BETWEEN" l (.expr_list (some [v1, v2])))
      (formatExpressionWithContext (m + 2) opts l ctx) ctx = _
    show formatExpressionWithContext (m + 2) opts l ctx ++ " NOT BETWEEN "
      ++ formatExpressionWithContext (m + 1) opts v1 ctx ++ " AND "
      ++ formatExpressionWithContext (m + 1) opts v2 ctx = _
    rw [h2, h4]
  · show formatUnaryExpressionWithContext (m + 3) opts "NOT"
      (.binary_expr "BETWEEN" l (.expr_list (some [v1, v2]))) ctx = _
    rfl

theorem claim_c5_amended_witness :
    formatExpressionWithContext 5 ⟨2, .upper⟩
        (.binary_expr "NOT BETWEEN" (.column_ref none (.str "a"))
          (.expr_list (some [.numberE 1, .numberE 2]))) sampleWhereCtx
      = formatExpressionWithContext 3 ⟨2, .upper⟩
          (.column_ref none (.str "a")) sampleWhereCtx
        ++ " NOT BETWEEN " ++ "1" ++ " AND " ++ "2" :=
  (claim_c5_amended 1 ⟨2, .upper⟩ (.column_ref none (.str "a"))
    (.numberE 1) (.numberE 2) sampleWhereCtx "1" "2"
    (by decide) (by decide) (by decide) (by decide)).1

/-! ### Claim C9 — orchestrator totality and catch-all -/

/-- Claim C9: `formatSql` is a total function into `String`; whenever any
pipeline step (external parse, empty-statement check, per-statement
rendering) fails, the original input is returned unchanged, and on the
success path the returned text is the rendered result with a `;` appended
when absent — for every parser and every statement renderer. -/
theorem claim_c9_orchestrator (parse : String → Except String ParseResult)
    (formatStatement : Stmt → Except String String) (sql : String) :
    (∀ e, formatSqlCore parse formatStatement sql = .error e →
       formatSql parse formatStatement sql = sql)
    ∧ (∀ r, formatSqlCore parse formatStatement sql = .ok r →
        formatSql parse formatStatement sql = r
        ∧ ∃ body, r = if endsWithJs body ";" then body else body ++ ";") := by
  constructor
  · intro e he
    unfold formatSql
    rw [he]
  · intro r hr
    constructor
    · unfold formatSql
      rw [hr]
    · unfold formatSqlCore at hr
      dsimp only at hr
      cases hp : parse (extractHintComment sql).1 with
      | error e =>
          rw [hp] at hr
          simp [Except.bind, Bind.bind] at hr
      | ok pr =>
          rw [hp] at hr
          simp only [Bind.bind, Except.bind] at hr
          by_cases hlen : pr.toStatements.length = 0
          · rw [if_pos hlen] at hr
            simp [throw, throwThe, MonadExceptOf.throw] at hr
          · rw [if_neg hlen] at hr
            cases hm : pr.toStatements.mapM formatStatement with
            | error e =>
                rw [hm] at hr
                simp [Except.bind, Bind.bind] at hr
            | ok fstrs =>
                rw [hm] at hr
                simp only [Bind.bind, Except.bind, pure, Except.pure] at hr
                cases hr
                exact ⟨_, rfl⟩

theorem claim_c9_orchestrator_witness :
    formatSql (fun _ => .ok (.single (Stmt.other "q")))
      (fun _ => .ok "UPDATE t") "update t" = "UPDATE t;"
    ∧ formatSql (fun _ => .error "parse error")
      (fun _ => .ok "UPDATE t") "update t" = "update t" := by
  constructor
  · exact ((claim_c9_orchestrator (fun _ => .ok (.single (Stmt.other "q")))
      (fun _ => .ok "UPDATE t") "update t").2 "UPDATE t;" (by rfl)).1
  · exact (claim_c9_orchestrator (fun _ => .error "parse error")
      (fun _ => .ok "UPDATE t") "update t").1 "parse error" (by rfl)

/-! ### Claim C1 — one shared keyword width across a WITH block -/

/-- Claim C1: at a root render call (nestLevel 0, contextKind `main`) on a
statement with a WITH clause, the renderer replaces the incoming
`baseKeywordWidth` by the global maximum computed over the CTE bodies and
the main query, so the result does not depend on the incoming width (or on
`isFirstSelect`); the clause parts are assembled under that recomputed
width; and the WITH-clause formatter renders every CTE body under a fresh
nestLevel-0 `main` context carrying exactly the same `baseKeywordLength`,
unmodified. -/
theorem claim_c1_shared_width (f : Nat) (opts : FormatterOptions)
    (ctes : List Cte) (cols : List Col) (fr : Option (List TableRef))
    (wh : Option Expr) (gb : Option GroupByField) (hv : Option Expr)
    (ob : Option (List OrdItem)) (lim : Option LimitClause)
    (sop : Option String) (nxt : Option Stmt)
    (w w' : Nat) (p : Option IndentContext) (fs fs' : Bool) (u : Bool) :
    formatSelectStatementWithContext (f + 1) opts
        (Stmt.select (some (.list ctes)) cols fr wh gb hv ob lim sop nxt)
        (.mk 0 .main w p fs) u
      = formatSelectStatementWithContext (f + 1) opts
        (Stmt.select (some (.list ctes)) cols fr wh gb hv ob lim sop nxt)
        (.mk 0 .main w' p fs') u
    ∧ formatSelectStatementWithContext (f + 1) opts
        (Stmt.select (some (.list ctes)) cols fr wh gb hv ob lim sop nxt)
        (.mk 0 .main w p fs) u
      = joinNl (selectStmtParts f opts
          (Stmt.select (some (.list ctes)) cols fr wh gb hv ob lim sop nxt)
          (.mk 0 .main
            (calculateGlobalMaxKeywordLength
              (Stmt.select (some (.list ctes)) cols fr wh gb hv ob lim sop nxt))
            p false) u)
    ∧ formatWithClauseWithContext (f + 1) opts (.list ctes)
        (.mk 0 .main
          (calculateGlobalMaxKeywordLength
            (Stmt.select (some (.list ctes)) cols fr wh gb hv ob lim sop nxt))
          p false) u
      = joinNl (ctes.enum.flatMap (fun ic =>
          (if ic.1 = 0 then "WITH " ++ ic.2.displayName ++ " AS ("
           else ",    " ++ ic.2.displayName ++ " AS (")
          :: (match ic.2.query with
              | some q =>
                  [formatSelectStatementWithContext f opts q
                    (.mk 0 .main
                      (calculateGlobalMaxKeywordLength
                        (Stmt.select (some (.list ctes)) cols fr wh gb hv ob
                          lim sop nxt))
                      p false) u]
              | none => []) ++ [")"])) := by
  refine ⟨rfl, rfl, rfl⟩

/-! ### Claim C7 — keyword case normalization -/

/-- Claim C7 states that with `keywordCase = lower` no emitted keyword token
contains an uppercase letter.  The WITH-clause header is emitted as the
hardcoded text `WITH <name> AS (`, bypassing `formatKeyword`, so a
lower-case render still begins with the uppercase token `WITH` (the same
holds for `AS`, `BETWEEN`/`AND`, `EXISTS`, `NULL`, date literals, `OVER`,
and the other literals emitted outside `formatKeyword`). -/
theorem claim_c7_counterexample :
    (strLines (formatSelectStatementWithContext 25 ⟨2, .lower⟩ sampleWithStmt
        (.mk 0 .main 0 none false) false)).head? = some "WITH c AS ("
    ∧ 'W' ∈ ("WITH c AS (" : String).data
    ∧ 'W'.isUpper = true := by
  refine ⟨by decide, by decide, by decide⟩

/-- Claim C7 (amended): every keyword routed through `formatKeyword` obeys
the case option — lower mode emits no uppercase letter and upper mode no
lowercase letter — but the WITH-clause header is emitted verbatim as
`WITH <name> AS (` for every option value, so its uppercase keyword
survives lower mode. -/
theorem claim_c7_amended :
    (∀ (opts : FormatterOptions) (k : String), opts.keywordCase = .lower →
       ∀ c ∈ (formatKeyword opts k).data, c.isUpper = false)
    ∧ (∀ (opts : FormatterOptions) (k : String), opts.keywordCase = .upper →
       ∀ c ∈ (formatKeyword opts k).data, c.isLower = false)
    ∧ (∀ (f : Nat) (opts : FormatterOptions) (cte : Cte) (rest : List Cte)
        (ctx : IndentContext) (u : Bool), singleLine cte.displayName →
        (strLines (formatWithClauseWithContext (f + 1) opts
            (.list (cte :: rest)) ctx u)).head?
          = some ("WITH " ++ cte.displayName ++ " AS (")) := by
  refine ⟨?_, ?_, ?_⟩
  · intro opts k h c hc
    unfold formatKeyword at hc
    rw [h, if_neg (by decide)] at hc
    unfold toLowerJs at hc
    obtain ⟨c2, _, hc2⟩ := List.mem_map.mp hc
    rw [← hc2]
    exact toLower_isUpper_false c2
  · intro opts k h c hc
    unfold formatKeyword at hc
    rw [h, if_pos rfl] at hc
    unfold toUpperJs at hc
    obtain ⟨c2, _, hc2⟩ := List.mem_map.mp hc
    rw [← hc2]
    exact toUpper_isLower_false c2
  · intro f opts cte rest ctx u hname
    show (strLines (joinNl ((cte :: rest).enum.flatMap _))).head? = _
    have henum : (cte :: rest).enum = (0, cte) :: rest.enumFrom 1 := rfl
    rw [henum]
    rw [List.flatMap_cons]
    have hheader : singleLine ("WITH " ++ cte.displayName ++ " AS (") :=
      singleLine_append (singleLine_append (by decide) hname) (by decide)
    cases hq : cte.query with
    | some q =>
        simp only [hq, List.cons_append, List.nil_append, List.append_assoc,
          eq_self_iff_true, if_true]
        rw [joinNl_cons_cons, strLines_concat _ _ hheader]
        rfl
    | none =>
        simp only [hq, List.cons_append, List.nil_append, List.append_assoc,
          eq_self_iff_true, if_true]
        rw [joinNl_cons_cons, strLines_concat _ _ hheader]
        rfl

theorem claim_c7_amended_witness :
    (strLines (formatWithClauseWithContext 5 ⟨2, KeywordCase.lower⟩
        (.list [Cte.mk (some (.plain "c")) none]) (.mk 0 .main 6 none false)
        false)).head?
      = some ("WITH " ++ (Cte.mk (some (.plain "c")) none).displayName
          ++ " AS (")
    ∧ 'w'.isUpper = false := by
  constructor
  · exact claim_c7_amended.2.2 4 ⟨2, KeywordCase.lower⟩
      (Cte.mk (some (.plain "c")) none) [] (.mk 0 .main 6 none false) false
      (by decide)
  · exact claim_c7_amended.1 ⟨2, KeywordCase.lower⟩ "WITH" rfl 'w' (by decide)

/-! ### Claim C4 — subquery operator layout -/

theorem strAppend_assoc (a b c : String) : a ++ b ++ c = a ++ (b ++ c) := by
  cases a; cases b; cases c
  show String.mk _ = String.mk _
  simp [String.append, List.append_assoc]

theorem getLast_closing (X : String) (k : Nat) :
    (strLines (X ++ "\n" ++ spaces k ++ ")")).getLast? = some (spaces k ++ ")") := by
  have h : X ++ "\n" ++ spaces k ++ ")" = X ++ "\n" ++ (spaces k ++ ")") :=
    strAppend_assoc _ _ _
  rw [h]
  exact strLines_getLast_concat X (spaces k ++ ")")
    (singleLine_append (singleLine_spaces k) (by decide))

/-- Claim C4 predicts that every subquery-taking operator in a WHERE/JOIN
context closes its parenthesized block at column `baseKeywordWidth - 2`;
for the plain IN operator the code instead closes at
`baseKeywordWidth + 1` (here 7, not 4, with width 6). -/
theorem claim_c4_counterexample :
    (strLines (formatExpressionWithContext 15 ⟨2, .upper⟩
        (.binary_expr "IN" (.column_ref none (.str "x")) (.sub sampleSubSelect))
        sampleWhereCtx)).getLast? = some (spaces 7 ++ ")")
    ∧ spaces 7 ++ ")" ≠ spaces (6 - 2) ++ ")" := by
  refine ⟨by decide, by decide⟩

/-- Claim C4 (amended): in a `where_clause` or `join_condition` context the
compact subquery form closes at column `baseKeywordWidth + 1` for the plain
IN operator, and at `baseKeywordWidth - 2` for NOT IN, for a binary NOT
wrapping a subquery operator, and for the EXISTS/ANY/ALL function forms;
in a `select_clause` context the deep form closes at the enclosing
context's `indentWidth()` (`getContextIndent`).  The width hypothesis
`2 ≤ b` keeps the truncated subtraction `b - 2` aligned with the JS
`' '.repeat(b - 2)`, which would raise below it. -/
theorem claim_c4_amended (m : Nat) (opts : FormatterOptions) (l l2 : Expr)
    (a : Stmt) (nl b : Nat) (p : Option IndentContext) (fs : Bool)
    (t : IndentContextType)
    (ht : t = .where_clause ∨ t = .join_condition) (_hb : 2 ≤ b) :
    (formatExpressionWithContext (m + 3) opts
        (.binary_expr "IN" l (.expr_list (some [.sub a]))) (.mk nl t b p fs)
      = formatExpressionWithContext (m + 1) opts l (.mk nl t b p fs)
        ++ " " ++ "IN" ++ " ("
        ++ formatSubqueryWithContext m opts a
            ((IndentContext.mk nl t b p fs).createSubqueryContext 6) true true
        ++ "\n" ++ spaces (b + 1) ++ ")"
     ∧ (strLines (formatExpressionWithContext (m + 3) opts
          (.binary_expr "IN" l (.expr_list (some [.sub a])))
          (.mk nl t b p fs))).getLast? = some (spaces (b + 1) ++ ")"))
    ∧ (formatExpressionWithContext (m + 3) opts
        (.binary_expr "NOT IN" l (.expr_list (some [.sub a]))) (.mk nl t b p fs)
      = formatExpressionWithContext (m + 1) opts l (.mk nl t b p fs)
        ++ " NOT IN (\n"
        ++ formatSubqueryWithContext m opts a
            ((IndentContext.mk nl t b p fs).createSubqueryContext 6) true true
        ++ "\n" ++ spaces (b - 2) ++ ")"
     ∧ (strLines (formatExpressionWithContext (m + 3) opts
          (.binary_expr "NOT IN" l (.expr_list (some [.sub a])))
          (.mk nl t b p fs))).getLast? = some (spaces (b - 2) ++ ")"))
    ∧ (formatExpressionWithContext (m + 3) opts
        (.binary_expr "NOT" l
          (.binary_expr "IN" l2 (.expr_list (some [.sub a])))) (.mk nl t b p fs)
      = formatExpressionWithContext (m + 1) opts l (.mk nl t b p fs)
        ++ " NOT " ++ "IN" ++ " (\n"
        ++ formatSubqueryWithContext m opts a
            ((IndentContext.mk nl t b p fs).createSubqueryContext 6) true true
        ++ "\n" ++ spaces (b - 2) ++ ")"
     ∧ (strLines (formatExpressionWithContext (m + 3) opts
          (.binary_expr "NOT" l
            (.binary_expr "IN" l2 (.expr_list (some [.sub a]))))
          (.mk nl t b p fs))).getLast? = some (spaces (b - 2) ++ ")"))
    ∧ (formatExpressionWithContext (m + 2) opts
        (.funcE (some (.parts ["EXISTS"])) (some (.objList [.sub a])))
        (.mk nl t b p fs)
      = "EXISTS (\n"
        ++ formatSubqueryWithContext m opts a
            ((IndentContext.mk nl t b p fs).createSubqueryContext 6) true true
        ++ "\n" ++ spaces (b - 2) ++ ")"
     ∧ (strLines (formatExpressionWithContext (m + 2) opts
          (.funcE (some (.parts ["EXISTS"])) (some (.objList [.sub a])))
          (.mk nl t b p fs))).getLast? = some (spaces (b - 2) ++ ")"))
    ∧ (formatExpressionWithContext (m + 2) opts
        (.funcE (some (.parts ["ANY"])) (some (.objList [.sub a])))
        (.mk nl t b p fs)
      = "ANY (\n"
        ++ formatSubqueryWithContext m opts a
            ((IndentContext.mk nl t b p fs).createSubqueryContext 6) true true
        ++ "\n" ++ spaces (b - 2) ++ ")"
     ∧ (strLines (formatExpressionWithContext (m + 2) opts
          (.funcE (some (.parts ["ALL"])) (some (.objList [.sub a])))
          (.mk nl t b p fs))).getLast? = some (spaces (b - 2) ++ ")"))
    ∧ (formatExpressionWithContext (m + 3) opts
        (.binary_expr "IN" l (.expr_list (some [.sub a])))
        (.mk nl .select_clause b p fs)
      = formatExpressionWithContext (m + 1) opts l
          (.mk nl .select_clause b p fs)
        ++ " " ++ "IN" ++ " (\n"
        ++ formatSubqueryWithContext m opts a
            ((IndentContext.mk nl .select_clause b p fs).createSubqueryContext 6)
            true false
        ++ "\n" ++ (IndentContext.mk nl .select_clause b p fs).getIndentString
        ++ ")"
     ∧ (strLines (formatExpressionWithContext (m + 3) opts
          (.binary_expr "IN" l (.expr_list (some [.sub a])))
          (.mk nl .select_clause b p fs))).getLast?
        = some (spaces (IndentContext.mk nl .select_clause b p fs).getContextIndent
            ++ ")")) := by
  rcases ht with rfl | rfl <;>
    exact ⟨⟨rfl, getLast_closing _ _⟩, ⟨rfl, getLast_closing _ _⟩,
      ⟨rfl, getLast_closing _ _⟩, ⟨rfl, getLast_closing _ _⟩,
      ⟨rfl, getLast_closing _ _⟩, ⟨rfl, getLast_closing _ _⟩⟩

theorem claim_c4_amended_witness :
    (strLines (formatExpressionWithContext 8 ⟨2, .upper⟩
        (.binary_expr "IN" (.column_ref none (.str "x"))
          (.expr_list (some [.sub sampleSubSelect])))
        (.mk 0 .where_clause 6 none false))).getLast?
      = some (spaces (6 + 1) ++ ")") :=
  ((claim_c4_amended 5 ⟨2, .upper⟩ (.column_ref none (.str "x"))
      (.column_ref none (.str "y")) sampleSubSelect 0 6 none false
      .where_clause (Or.inl rfl) (by decide)).1).2

/-! ### Claim C6 — AND/OR chain flattening -/

theorem singleLine_left {a b : String} (h : singleLine (a ++ b)) :
    singleLine a := by
  unfold singleLine at *
  rw [strData_append] at h
  intro hm
  exact h (List.mem_append.mpr (Or.inl hm))

theorem anyAllRightIntercept_some {r : Expr} {fn : String} {ast : Stmt}
    (h : anyAllRightIntercept r = some (fn, ast)) :
    ∃ ps a0 rest2, r = .funcE (some (.parts ps)) (some (.objList (a0 :: rest2)))
      ∧ toUpperJs (ps.head?.getD "") = fn
      ∧ (fn = "ANY" ∨ fn = "ALL")
      ∧ a0.astField = some ast := by
  cases r <;> try simp [anyAllRightIntercept] at h
  next name args =>
    match name, args with
    | none, _ => simp [anyAllRightIntercept] at h
    | some (.plain s), _ => simp [anyAllRightIntercept] at h
    | some (.valObj s), _ => simp [anyAllRightIntercept] at h
    | some (.parts ps), none => simp [anyAllRightIntercept] at h
    | some (.parts ps), some (.arrList vs) => simp [anyAllRightIntercept] at h
    | some (.parts ps), some (.objList []) => simp [anyAllRightIntercept] at h
    | some (.parts ps), some (.objList (a0 :: rest2)) =>
        refine ⟨ps, a0, rest2, rfl, ?_⟩
        simp only [anyAllRightIntercept] at h
        by_cases hf : toUpperJs (ps.head?.getD "") = "ANY"
          ∨ toUpperJs (ps.head?.getD "") = "ALL"
        · rw [if_pos hf] at h
          cases ha : a0.astField with
          | some ast2 =>
              rw [ha] at h
              simp only [Option.some.injEq, Prod.mk.injEq] at h
              obtain ⟨h1, h2⟩ := h
              subst h1
              subst h2
              exact ⟨rfl, hf, rfl⟩
          | none => rw [ha] at h; cases h
        · rw [if_neg hf] at h
          cases h

theorem not_singleLine_open_nl (a : String) : ¬ singleLine (a ++ " (\n") := by
  unfold singleLine
  intro h
  apply h
  rw [strData_append]
  exact List.mem_append.mpr (Or.inr (by decide))

theorem anyAll_render_not_singleLine (k : Nat) (opts : FormatterOptions)
    (ps : List String) (a0 : Expr) (rest2 : List Expr) (ctx : IndentContext)
    (ast : Stmt) (fn : String)
    (hfn : toUpperJs (ps.head?.getD "") = fn)
    (hf : fn = "ANY" ∨ fn = "ALL")
    (ha : a0.astField = some ast) :
    ¬ singleLine (formatExpressionWithContext (k + 2) opts
        (.funcE (some (.parts ps)) (some (.objList (a0 :: rest2)))) ctx) := by
  intro hsl
  have hdisp : formatExpressionWithContext (k + 2) opts
      (.funcE (some (.parts ps)) (some (.objList (a0 :: rest2)))) ctx
    = (match handleSpecialOperators (k + 1) opts
          (.funcE (some (.parts ps)) (some (.objList (a0 :: rest2)))) ctx with
       | some s => s
       | none =>
           formatFunctionWithContext (k + 1) opts (some (.parts ps))
             (some (.objList (a0 :: rest2))) ctx) := rfl
  rw [hdisp] at hsl
  have hne : fn ≠ "EXISTS" := by rcases hf with rfl | rfl <;> decide
  by_cases hw : isWhereContext ctx
  · have hspec : handleSpecialOperators (k + 1) opts
        (.funcE (some (.parts ps)) (some (.objList (a0 :: rest2)))) ctx
      = some (fn ++ " (\n"
          ++ formatSubqueryWithContext k opts ast (ctx.createSubqueryContext 6)
              true (isWhereContext ctx)
          ++ "\n" ++ spaces (ctx.baseKeywordLength - 2) ++ ")") := by
      simp only [handleSpecialOperators]
      rw [hfn, if_neg hne, if_pos hf, ha]
      simp only [hw, if_true]
    rw [hspec] at hsl
    exact not_singleLine_open_nl fn
      (singleLine_left (singleLine_left (singleLine_left (singleLine_left hsl))))
  · have hspec : handleSpecialOperators (k + 1) opts
        (.funcE (some (.parts ps)) (some (.objList (a0 :: rest2)))) ctx
      = some (fn ++ " (\n"
          ++ formatSubqueryWithContext k opts ast (ctx.createSubqueryContext 6)
              true (isWhereContext ctx)
          ++ "\n" ++ ctx.getIndentString ++ ")") := by
      simp only [handleSpecialOperators]
      rw [hfn, if_neg hne, if_pos hf, ha]
      simp only [hw, Bool.false_eq_true, if_false]
    rw [hspec] at hsl
    exact not_singleLine_open_nl fn
      (singleLine_left (singleLine_left (singleLine_left (singleLine_left hsl))))


theorem andOr_tail_lines (k : Nat) (opts : FormatterOptions) (op : String)
    (l r : Expr) (t : IndentContextType) (b : Nat) (p : Option IndentContext)
    (fs : Bool) (c0 : Expr) (rest : List Expr)
    (hop : op = "AND" ∨ op = "OR")
    (hflat : flattenAndOrConditions (.binary_expr op l r) op = c0 :: rest)
    (hsl : ∀ c ∈ flattenAndOrConditions (.binary_expr op l r) op,
       singleLine (formatExpressionWithContext (k + 2) opts c (.mk 0 t b p fs))) :
    strLines (formatBinaryTail (k + 3) opts op l r
        (formatExpressionWithContext (k + 3) opts l (.mk 0 t b p fs))
        (.mk 0 t b p fs))
      = formatExpressionWithContext (k + 2) opts c0 (.mk 0 t b p fs)
        :: rest.map (fun c => spaces (b - op.length) ++ op ++ " "
             ++ formatExpressionWithContext (k + 2) opts c (.mk 0 t b p fs)) := by
  simp only [formatBinaryTail]
  rw [if_neg (by rcases hop with rfl | rfl <;> decide),
      if_neg (by rcases hop with rfl | rfl <;> decide)]
  rcases hint : anyAllRightIntercept r with _ | ⟨fn, ast⟩
  case some =>
    exfalso
    obtain ⟨ps, a0, rest2, rfl, hfn, hf, ha⟩ := anyAllRightIntercept_some hint
    have hrmem : (Expr.funcE (some (.parts ps))
        (some (.objList (a0 :: rest2)))) ∈
        flattenAndOrConditions (.binary_expr op l
          (.funcE (some (.parts ps)) (some (.objList (a0 :: rest2))))) op := by
      rw [flatten_opNode,
        flatten_not_opNode (Expr.funcE (some (.parts ps))
          (some (.objList (a0 :: rest2)))) op rfl]
      exact List.mem_append_right _ (List.mem_cons_self _ _)
    exact anyAll_render_not_singleLine k opts ps a0 rest2 _ ast fn hfn hf ha
      (hsl _ hrmem)
  case none =>
    dsimp only
    rw [if_pos ⟨hop, rfl⟩]
    rw [hflat]
    dsimp only
    apply strLines_joinNl
    · simp
    · intro q hq
      rcases List.mem_cons.mp hq with rfl | hq2
      · exact hsl c0 (hflat ▸ List.mem_cons_self _ _)
      · obtain ⟨c, hc, rfl⟩ := List.mem_map.mp hq2
        refine singleLine_append (singleLine_append (singleLine_append
          (singleLine_spaces _) (by rcases hop with rfl | rfl <;> decide))
          (by decide)) ?_
        exact hsl c (hflat ▸ List.mem_cons_of_mem _ hc)

/-- Claim C6: a condition tree of `d` nested applications of one
associative operator (AND or OR) with single-line leaves, rendered at
nestLevel 0, produces exactly `d + 1` display lines: the first flattened
leaf alone, then one line per remaining leaf prefixed by the operator
right-aligned to `baseKeywordWidth` and a single space, in left-to-right
flattened order.  (`op.length ≤ b` keeps the padding aligned with the JS
`' '.repeat(b - op.length)`; `2 ≤ m` gives the leaves enough fuel for the
single-line hypothesis to rule out the ANY/ALL interception.) -/
theorem claim_c6_and_or_chain (m : Nat) (opts : FormatterOptions)
    (op : String) (l r : Expr) (t : IndentContextType) (b : Nat)
    (p : Option IndentContext) (fs : Bool) (d : Nat) (c0 : Expr)
    (rest : List Expr)
    (hop : op = "AND" ∨ op = "OR")
    (hlen : op.length ≤ b)
    (hm : 2 ≤ m)
    (hch : ChainOf op (.binary_expr op l r) d)
    (hflat : flattenAndOrConditions (.binary_expr op l r) op = c0 :: rest)
    (hsl : ∀ c ∈ flattenAndOrConditions (.binary_expr op l r) op,
       singleLine (formatExpressionWithContext m opts c (.mk 0 t b p fs))) :
    strLines (formatExpressionWithContext (m + 3) opts (.binary_expr op l r)
        (.mk 0 t b p fs))
      = formatExpressionWithContext m opts c0 (.mk 0 t b p fs)
        :: rest.map (fun c =>
             spaces (b - op.length) ++ op ++ " "
               ++ formatExpressionWithContext m opts c (.mk 0 t b p fs))
    ∧ rest.length = d := by
  refine ⟨?_, ?_⟩
  case refine_2 =>
    have hl := chainOf_flatten_length hch
    rw [hflat] at hl
    simpa using hl
  case refine_1 =>
    obtain ⟨k, rfl⟩ : ∃ k, m = k + 2 := ⟨m - 2, by omega⟩
    rcases hop with h | h
    · subst h
      exact andOr_tail_lines k opts "AND" l r t b p fs c0 rest (Or.inl rfl)
        hflat hsl
    · subst h
      exact andOr_tail_lines k opts "OR" l r t b p fs c0 rest (Or.inr rfl)
        hflat hsl

theorem claim_c6_and_or_chain_witness :
    strLines (formatExpressionWithContext 5 ⟨2, .upper⟩
        (.binary_expr "AND"
          (.binary_expr "AND"
            (.binary_expr "=" (.column_ref none (.str "a")) (.numberE 1))
            (.binary_expr "=" (.column_ref none (.str "b")) (.numberE 1)))
          (.binary_expr "=" (.column_ref none (.str "c")) (.numberE 1)))
        (.mk 0 .where_clause 6 none false))
      = formatExpressionWithContext 2 ⟨2, .upper⟩
          (.binary_expr "=" (.column_ref none (.str "a")) (.numberE 1))
          (.mk 0 .where_clause 6 none false)
        :: List.map (fun c => spaces (6 - "AND".length) ++ "AND" ++ " "
               ++ formatExpressionWithContext 2 ⟨2, .upper⟩ c
                   (.mk 0 .where_clause 6 none false))
             [.binary_expr "=" (.column_ref none (.str "b")) (.numberE 1),
              .binary_expr "=" (.column_ref none (.str "c")) (.numberE 1)]
    ∧ ([Expr.binary_expr "=" (.column_ref none (.str "b")) (.numberE 1),
        Expr.binary_expr "=" (.column_ref none (.str "c")) (.numberE 1)]).length
      = 2 :=
  claim_c6_and_or_chain 2 ⟨2, .upper⟩ "AND"
    (.binary_expr "AND"
      (.binary_expr "=" (.column_ref none (.str "a")) (.numberE 1))
      (.binary_expr "=" (.column_ref none (.str "b")) (.numberE 1)))
    (.binary_expr "=" (.column_ref none (.str "c")) (.numberE 1))
    .where_clause 6 none false 2
    (.binary_expr "=" (.column_ref none (.str "a")) (.numberE 1))
    [.binary_expr "=" (.column_ref none (.str "b")) (.numberE 1),
     .binary_expr "=" (.column_ref none (.str "c")) (.numberE 1)]
    (Or.inl rfl) (by decide) (by decide)
    (ChainOf.node _ _ 1 0
      (ChainOf.node _ _ 0 0 (ChainOf.leaf _ (by decide))
        (ChainOf.leaf _ (by decide)))
      (ChainOf.leaf _ (by decide)))
    rfl (by decide)
